import Mathlib

/-!
# MultiversoWrapper.h : shallow embedding of `MultiversoHelper`

Source: `Source/Common/Include/MultiversoWrapper.h`, class `MultiversoHelper<ElemType>`, as a
normal build compiles it (`CPUONLY` not defined): pinned host buffers `m_cpuAsyncBuffer`,
`m_deltaArray`, and the device buffers `m_gpuAsyncBuffer`.  The `#else` parts of the
`CPUONLY` configuration are not part of `PushAndPullModel` as embedded here: their staging
loop frees the slot it has just staged (`delete px`) and `m_deltaArray` is never allocated
there.  Only the lambda of that configuration is embedded, on its own (`cpuLambdaBody`).

Modelling conventions.

* `ElemType`, `float` and `double` values are exact rationals; rounding is not modelled.
  Divisions by zero are treated where they occur (`DecayCoefficient`, `initDelta`).
* `size_t` quantities (element counts, offsets, the call counter) are natural numbers:
  a run can neither hold `2^64` elements nor perform `2^64` calls.  `int` arithmetic is
  kept modulo `2^32`, because `2^31` elements is a size a run can reach
  (`std::accumulate` with the `int` seed `0`); the byte count of an allocation is kept
  modulo `2^64`.
* A raw buffer (`ElemType*`) is a map from element index to value; `p + off` is `readAt p off`.
  Element access into a `std::vector` is `getD`, and a copy into a device matrix replaces
  elements of that matrix only.  Bounds are not checked by the embedding: the theorems on
  the asynchronous branch assume the shapes under which every access of the code is in
  bounds (`Registered`, `GpuShaped`, tensors of the registered shapes).
* The device id the thread reads from device matrix `0` of its slot, and `cudaSetDevice`,
  leave the embedded state unchanged.
* A host allocation of `2^63` bytes or more fails; a smaller one, and every other call of
  the device runtime under `CudaErrorCheck`, is taken to succeed.
* The background thread started by `PushAndPullModel` is joined before any buffer it touches
  is used again, so its body is run to completion at the point where it is started.  The
  thread reads `m_modelSyncCount`, which the next call increments before it joins; the
  embedding takes the value at the start of the thread.
* `NDEBUG` (whether `assert` is compiled out) is a parameter of `MultiversoInit`.
* The parameter server is a collaborator, passed as an interface (`ParameterServer`).
-/

namespace Multiverso

/-- Element type of tensors and buffers (idealised `float`). -/
abbrev ElemType := ℚ

/-- Enumeration `AdjustLearningRateatBeginning` of the source. -/
inductive AdjustLearningRateatBeginning where
  | None
  | Linearly
  | Staircase
  deriving DecidableEq, Repr

/-- Learnable tensor (`Matrix<ElemType>`): shape and flat storage.  `CopyToArray(p, n)`
copies the `n` stored elements to `p` (`writeAt p' off n data` for `p = p' + off`). -/
structure Matrix where
  numRows : Nat
  numCols : Nat
  data : Nat → ElemType

/-- Element count of a tensor, `GetNumElements()`. -/
def Matrix.GetNumElements (m : Matrix) : Nat := m.numRows * m.numCols

/-- In-place value replacement `SetValue(rows, cols, deviceId, p)`: the tensor takes the
`rows * cols` elements found at `p`. -/
def Matrix.SetValue (_m : Matrix) (rows cols : Nat) (p : Nat → ElemType) : Matrix :=
  { numRows := rows, numCols := cols, data := fun j => if j < rows * cols then p j else 0 }

instance : Inhabited Matrix := ⟨⟨0, 0, fun _ => 0⟩⟩

/-- Pointer arithmetic `p + off`. -/
def readAt (p : Nat → ElemType) (off : Nat) : Nat → ElemType := fun j => p (off + j)

/-- Copy of `n` elements from `src` to `dst + off` (`memcpy`, `CopyToArray`, `Get`). -/
def writeAt (dst : Nat → ElemType) (off n : Nat) (src : Nat → ElemType) : Nat → ElemType :=
  fun i => if off ≤ i ∧ i < off + n then src (i - off) else dst i

/-- The `n` elements found at `p`, as handed to the server by `Add(p, n)`. -/
def takeElems (p : Nat → ElemType) (n : Nat) : List ElemType := (List.range n).map p

/-- Counted loop `for (int i = 0; i < n; i++) body`. -/
def forCount {α : Type} (n : Nat) (body : Nat → α → α) (s : α) : α :=
  (List.range n).foldl (fun s i => body i s) s

/-- Conversion of a `size_t` value to `int` (32 bits, two's complement). -/
def toInt32 (n : Nat) : Int :=
  if n % 2 ^ 32 < 2 ^ 31 then ((n % 2 ^ 32 : Nat) : Int) else ((n % 2 ^ 32 : Nat) : Int) - 2 ^ 32

/-- Conversion of an `int` to `size_t` (64 bits). -/
def toSizeT (x : Int) : Nat := (x % 2 ^ 64).toNat

/-- Call `std::accumulate(first, last, init)` with an `int` seed: every partial sum is
computed in `size_t` and stored back into the `int` accumulator. -/
def accumulate (xs : List Nat) (init : Int) : Int :=
  xs.foldl (fun acc x => toInt32 (toSizeT acc + x)) init

/-- Offsets loop `for (size_t len : m_tableLength) { push_back(idx); idx += len; }`. -/
def offsetsLoop : List Nat → Nat → List Nat
  | [], _ => []
  | len :: rest, idx => idx :: offsetsLoop rest (idx + len)

/-- Member state of `MultiversoHelper`.  `m_gpuAsyncBuffer` gives, per slot, the vector of
device matrices. -/
structure MultiversoHelper where
  m_isInitialized : Bool
  m_totalClientNumber : Int
  m_isUseAsyncBuffered : Bool
  m_localCacheNumber : Nat
  m_cacheSwapIndex : List Nat
  m_bufferInUse : Nat
  m_modelSyncCount : Nat
  m_adjustLearningRateAtBeginningType : AdjustLearningRateatBeginning
  m_adjustCoefficient : ℚ
  m_adjustMBNumber : Nat
  m_tableLength : List Nat
  m_totalModelSize : Nat
  m_tableOffsets : List Nat
  m_tableCount : Nat
  m_matrixArray : List (Nat × Nat)
  m_deltaArray : Nat → ElemType
  m_cpuAsyncBuffer : Nat → Nat → ElemType
  m_gpuAsyncBuffer : Nat → List Matrix
  m_prefetchThread : Bool

/-- Pure core of `DecayCoefficient()`, over the members it reads:
`f = min(1.f, max(0.f, x))`.  `Staircase` divides two `size_t`; with window `0` that
division has no result.  `Linearly` divides doubles; with window `0` the quotient
`(1 - coef) / 0` is `+inf` for `coef < 1`, `-inf` for `coef > 1` and NaN for `coef = 1`, and
times a zero count it is NaN; `std::max(0.f, x)` then `std::min(1.f, .)` send `+inf` to `1`
and `-inf` and NaN to `0`. -/
def DecayCoefficient (ty : AdjustLearningRateatBeginning) (coef : ℚ) (mbNumber syncCount : Nat) :
    Option ℚ :=
  match ty with
  | .None => some 1
  | .Linearly =>
    if mbNumber = 0 then some (if coef < 1 ∧ 0 < syncCount then 1 else 0)
    else some (min 1 (max 0 (coef + (1 - coef) / (mbNumber : ℚ) * (syncCount : ℚ))))
  | .Staircase =>
    if mbNumber = 0 then none
    else some (min 1 (max 0 (coef * (((syncCount / mbNumber + 1 : Nat)) : ℚ))))

/-- Method `DecayCoefficient()` on the member state. -/
def MultiversoHelper.DecayCoefficient (h : MultiversoHelper) : Option ℚ :=
  Multiverso.DecayCoefficient h.m_adjustLearningRateAtBeginningType h.m_adjustCoefficient
    h.m_adjustMBNumber h.m_modelSyncCount

/-- Decay policy as the specification words it (section 4.3), for a positive window. -/
def specDecay (ty : AdjustLearningRateatBeginning) (coef : ℚ) (window iteration : Nat) : ℚ :=
  match ty with
  | .None => 1
  | .Linearly => min (max (coef + (1 - coef) / (window : ℚ) * (iteration : ℚ)) 0) 1
  | .Staircase => min (max (coef * (((iteration / window : Nat) : ℚ) + 1)) 0) 1

/-- Size `sizeof(ElemType)` in bytes, for the default template argument `float`. -/
def sizeofElemType : Nat := 4

/-- Outcome of `cudaMallocHost(&p, sizeof(ElemType) * n, ...)` under `CudaErrorCheck`: the
byte count is a `size_t` product; a request of `2^63` bytes or more is refused and the
process exits, a smaller request is taken to be granted.  `MultiversoInit` asks for
`m_totalModelSize` elements, which is either below `2^31` or at least `2^64 - 2^31`
(`hostAllocFails_iff_negative`), so its requests are far from the threshold. -/
def hostAllocFails (n : Nat) : Bool := decide (2 ^ 63 ≤ (sizeofElemType * n) % 2 ^ 64)

/-- Private method `MultiversoInit(learnableNodes)`: the assertion on `m_isInitialized`
(compiled out when `ndebug`), then one table per tensor, the table count, the total size,
the offsets, and the allocation of the host buffers, each of `m_totalModelSize` elements.
The contents of the allocated buffers are those the state carries. -/
def MultiversoInit (ndebug : Bool) (h : MultiversoHelper) (learnableNodes : List Matrix) :
    Except String MultiversoHelper :=
  if !ndebug && h.m_isInitialized then .error "assert(!m_isInitialized)"
  else
    let tableLength := h.m_tableLength ++ learnableNodes.map Matrix.GetNumElements
    let totalModelSize := toSizeT (accumulate tableLength 0)
    if hostAllocFails totalModelSize then .error "cudaMallocHost"
    else
      .ok { h with
        m_isInitialized := true
        m_matrixArray := learnableNodes.map (fun m => (m.numRows, m.numCols))
        m_tableLength := tableLength
        m_tableCount := tableLength.length
        m_totalModelSize := totalModelSize
        m_tableOffsets := h.m_tableOffsets ++ offsetsLoop tableLength 0 }

/-- Field initialisers of the constructor (everything before the call of `MultiversoInit`).
`isInitialized0` is the content of the member `m_isInitialized`, which the constructor never
assigns; `delta0` and `buffers0` are the contents of the buffers as allocated; every slot of
`m_gpuAsyncBuffer` starts as an empty vector (`resize`). -/
def fieldInitialisers (isInitialized0 : Bool) (delta0 : Nat → ElemType)
    (buffers0 : Nat → Nat → ElemType) (MPINodeNum : Int) (isAsyncBuffered : Bool)
    (adjusttype : AdjustLearningRateatBeginning) (adjustcoef : ℚ) (adjustnbmb : Nat) :
    MultiversoHelper :=
  let localCacheNumber := if isAsyncBuffered then 2 else 1
  { m_isInitialized := isInitialized0
    m_totalClientNumber := MPINodeNum
    m_isUseAsyncBuffered := isAsyncBuffered
    m_localCacheNumber := localCacheNumber
    m_cacheSwapIndex := (List.range localCacheNumber).map (fun i => (i + 1) % localCacheNumber)
    m_bufferInUse := 0
    m_modelSyncCount := 0
    m_adjustLearningRateAtBeginningType := adjusttype
    m_adjustCoefficient := adjustcoef
    m_adjustMBNumber := adjustnbmb
    m_tableLength := []
    m_totalModelSize := 0
    m_tableOffsets := []
    m_tableCount := 0
    m_matrixArray := []
    m_deltaArray := delta0
    m_cpuAsyncBuffer := buffers0
    m_gpuAsyncBuffer := fun _ => []
    m_prefetchThread := false }

/-- Constructor of `MultiversoHelper`: the field initialisers, then `MultiversoInit`. -/
def newMultiversoHelper (ndebug isInitialized0 : Bool) (delta0 : Nat → ElemType)
    (buffers0 : Nat → Nat → ElemType) (learnableNodes : List Matrix) (MPINodeNum : Int)
    (isAsyncBuffered : Bool) (adjusttype : AdjustLearningRateatBeginning) (adjustcoef : ℚ)
    (adjustnbmb : Nat) : Except String MultiversoHelper :=
  MultiversoInit ndebug
    (fieldInitialisers isInitialized0 delta0 buffers0 MPINodeNum isAsyncBuffered adjusttype
      adjustcoef adjustnbmb)
    learnableNodes

/-- Client interface of the parameter server for the tables of one worker: `Add(k, values)`
hands `values` to table `k`, `Get(k, n)` returns the `n` current values of table `k`.
Either call may change the server's state. -/
structure ParameterServer (σ : Type) where
  Add : σ → Nat → List ElemType → σ
  Get : σ → Nat → Nat → σ × (Nat → ElemType)

/-- Loop `for (nodeIter = begin; nodeIter != end; nodeIter++, i++) body`. -/
def forNodes {α : Type} (nodes : List Matrix) (body : Nat → Matrix → α → α) (s : α) : α :=
  forCount nodes.length (fun i s => body i (nodes.getD i default) s) s

/-- Replacement of the contents of buffer slot `s`. -/
def setSlot {α : Type} (bufs : Nat → α) (s : Nat) (b : α) : Nat → α :=
  fun t => if t = s then b else bufs t

/-- Call `std::transform(first1, first1 + n, first2, out, std::minus)`. -/
def transformMinus (first1 : Nat → ElemType) (n : Nat) (first2 out : Nat → ElemType) :
    Nat → ElemType :=
  fun i => if i < n then first1 i - first2 i else out i

/-- Call `std::transform(first, first + n, out, std::bind1st(std::multiplies, factor))`. -/
def transformScale (first : Nat → ElemType) (n : Nat) (out : Nat → ElemType) (factor : ℚ) :
    Nat → ElemType :=
  fun i => if i < n then factor * first i else out i

/-- Element `m_tableOffsets[i]`. -/
def MultiversoHelper.offset (h : MultiversoHelper) (i : Nat) : Nat := h.m_tableOffsets.getD i 0

/-- Element `m_tableLength[i]`. -/
def MultiversoHelper.length (h : MultiversoHelper) (i : Nat) : Nat := h.m_tableLength.getD i 0

/-- Body of the loops `px = m_deltaArray + m_tableOffsets[widx]; table->Add(px, len)`. -/
def addStep {σ : Type} (S : ParameterServer σ) (h : MultiversoHelper) (delta : Nat → ElemType)
    (widx : Nat) (srv : σ) : σ :=
  S.Add srv widx (takeElems (readAt delta (h.offset widx)) (h.length widx))

/-- Body of the loops `table->Add(px, len); table->Get(py, len)` with `px` in the delta
array and `py` in the buffer `buf`. -/
def addGetStep {σ : Type} (S : ParameterServer σ) (h : MultiversoHelper) (delta : Nat → ElemType)
    (widx : Nat) (s : σ × (Nat → ElemType)) : σ × (Nat → ElemType) :=
  let srv1 := addStep S h delta widx s.1
  let r := S.Get srv1 widx (h.length widx)
  (r.1, writeAt s.2 (h.offset widx) (h.length widx) r.2)

/-- Buffer slots after the first two loops of `InitModel`: slot 0 takes every tensor at its
offset, then every other slot takes `m_totalModelSize` elements of slot 0 (`memcpy`). -/
def initBuffers (h : MultiversoHelper) (learnableNodes : List Matrix) : Nat → Nat → ElemType :=
  let buf0 := forNodes learnableNodes
    (fun i mat b => writeAt b (h.offset i) (h.length i) mat.data) (h.m_cpuAsyncBuffer 0)
  forCount (h.m_localCacheNumber - 1)
    (fun i b => setSlot b (i + 1) (writeAt (b (i + 1)) 0 h.m_totalModelSize (b 0)))
    (setSlot h.m_cpuAsyncBuffer 0 buf0)

/-- Device buffers after the first loop of `InitModel`: for every tensor, every slot gets a
clone of it (`m_gpuAsyncBuffer[j].push_back(mat.DeepClone())`). -/
def initGpuBuffers (h : MultiversoHelper) (learnableNodes : List Matrix) :
    Nat → List Matrix :=
  forNodes learnableNodes
    (fun _ mat g => forCount h.m_localCacheNumber (fun j g => setSlot g j (g j ++ [mat])) g)
    h.m_gpuAsyncBuffer

/-- Delta array pushed by `InitModel`: a copy of slot 0 scaled by
`factor = 1.0 / m_totalClientNumber` (exact for a non-zero client number). -/
def initDelta (h : MultiversoHelper) (learnableNodes : List Matrix) : Nat → ElemType :=
  let factor : ℚ := 1 / (h.m_totalClientNumber : ℚ)
  let delta := writeAt h.m_deltaArray 0 h.m_totalModelSize (initBuffers h learnableNodes 0)
  transformScale delta h.m_totalModelSize delta factor

/-- First half of `InitModel`, up to the barrier `WaitAll()`: the device buffers, the slots
and the delta array are filled, and the delta array is pushed table by table. -/
def InitModel_push {σ : Type} (S : ParameterServer σ) (srv : σ) (h : MultiversoHelper)
    (learnableNodes : List Matrix) : σ × MultiversoHelper :=
  let delta := initDelta h learnableNodes
  let srv := forCount h.m_tableCount (addStep S h delta) srv
  (srv, { h with
    m_cpuAsyncBuffer := initBuffers h learnableNodes
    m_gpuAsyncBuffer := initGpuBuffers h learnableNodes
    m_deltaArray := delta })

/-- Second half of `InitModel`, after the barrier: every table is fetched into the delta
array at its offset. -/
def InitModel_pull {σ : Type} (S : ParameterServer σ) (srv : σ) (h : MultiversoHelper) :
    σ × MultiversoHelper :=
  let r := forCount h.m_tableCount
    (fun widx (s : σ × (Nat → ElemType)) =>
      let g := S.Get s.1 widx (h.length widx)
      (g.1, writeAt s.2 (h.offset widx) (h.length widx) g.2))
    (srv, h.m_deltaArray)
  (r.1, { h with m_deltaArray := r.2 })

/-- Method `InitModel` as one worker runs it (the barrier changes nothing locally). -/
def InitModel {σ : Type} (S : ParameterServer σ) (srv : σ) (h : MultiversoHelper)
    (learnableNodes : List Matrix) : σ × MultiversoHelper :=
  let r := InitModel_push S srv h learnableNodes
  InitModel_pull S r.1 r.2

/-- Method `WaitAsyncBuffer()`: join and drop the outstanding thread handle. -/
def WaitAsyncBuffer (h : MultiversoHelper) : MultiversoHelper :=
  if h.m_prefetchThread then { h with m_prefetchThread := false } else h

/-- Body of the staging loop of the asynchronous branch: the elements of tensor `i` are
copied into device matrix `i` of the slot in use, then tensor `i` takes its elements from
device matrix `i` of the other slot (two `cudaMemcpy` of `mat.GetNumElements()` elements). -/
def asyncStageStep (h : MultiversoHelper) (i : Nat) (mat : Matrix)
    (s : (Nat → List Matrix) × List Matrix) : (Nat → List Matrix) × List Matrix :=
  let dst := (s.1 h.m_bufferInUse).getD i default
  let gpu := setSlot s.1 h.m_bufferInUse
    ((s.1 h.m_bufferInUse).set i
      { dst with data := writeAt dst.data 0 mat.GetNumElements mat.data })
  let src := (gpu (h.m_cacheSwapIndex.getD h.m_bufferInUse 0)).getD i default
  (gpu, s.2.set i { mat with data := writeAt mat.data 0 mat.GetNumElements src.data })

/-- Staging loop of the asynchronous branch over the tensors. -/
def asyncStageLoop (h : MultiversoHelper) (learnableNodes : List Matrix) :
    (Nat → List Matrix) × List Matrix :=
  forNodes learnableNodes (asyncStageStep h) (h.m_gpuAsyncBuffer, learnableNodes)

/-- First loop of the thread body: device matrix `widx` of the slot is copied to the delta
array at the offset of table `widx` (`cudaMemcpyAsync`, device to host). -/
def deviceToHost (h : MultiversoHelper) (gpuSlot : List Matrix) (delta : Nat → ElemType) :
    Nat → ElemType :=
  forCount h.m_tableCount
    (fun widx d => writeAt d (h.offset widx) (gpuSlot.getD widx default).GetNumElements
      (gpuSlot.getD widx default).data)
    delta

/-- Last loop of the thread body: device matrix `widx` of the slot takes its elements from
the host slot at the offset of table `widx` (`cudaMemcpyAsync`, host to device). -/
def hostToDevice (h : MultiversoHelper) (buf : Nat → ElemType) (gpuSlot : List Matrix) :
    List Matrix :=
  forCount h.m_tableCount
    (fun widx (g : List Matrix) =>
      g.set widx { g.getD widx default with
        data := writeAt (g.getD widx default).data 0 (g.getD widx default).GetNumElements
          (readAt buf (h.offset widx)) })
    gpuSlot

/-- Delta array computed by the thread body: the staged device slot is copied to the delta
array, then `host slot - delta`, then scaled by the factor. -/
def threadDelta (h : MultiversoHelper) (factor : ℚ) : Nat → ElemType :=
  let delta := deviceToHost h (h.m_gpuAsyncBuffer h.m_bufferInUse) h.m_deltaArray
  let delta := transformMinus (h.m_cpuAsyncBuffer h.m_bufferInUse) h.m_totalModelSize
    delta delta
  transformScale delta h.m_totalModelSize delta factor

/-- Body of the thread started by the asynchronous branch (the lambda of lines 209-258). -/
def prefetchThreadBody {σ : Type} (S : ParameterServer σ) (srv : σ) (h : MultiversoHelper) :
    Option (σ × MultiversoHelper) :=
  match h.DecayCoefficient with
  | none => none
  | some factor =>
    let t_cacheIdx := h.m_bufferInUse
    let delta := threadDelta h factor
    let r := forCount h.m_tableCount (addGetStep S h delta) (srv, h.m_cpuAsyncBuffer t_cacheIdx)
    some (r.1, { h with
      m_deltaArray := delta
      m_cpuAsyncBuffer := setSlot h.m_cpuAsyncBuffer t_cacheIdx r.2
      m_gpuAsyncBuffer := setSlot h.m_gpuAsyncBuffer t_cacheIdx
        (hostToDevice h r.2 (h.m_gpuAsyncBuffer t_cacheIdx)) })

/-- Delta array computed by the lambda of the `CPUONLY` configuration (lines 260-277):
`host slot - delta` with the delta array as the previous merge left it, then scaled. -/
def cpuLambdaDelta (h : MultiversoHelper) (factor : ℚ) : Nat → ElemType :=
  let delta := transformMinus (h.m_cpuAsyncBuffer h.m_bufferInUse) h.m_totalModelSize
    h.m_deltaArray h.m_deltaArray
  transformScale delta h.m_totalModelSize delta factor

/-- Lambda of the `CPUONLY` configuration (lines 260-277), embedded on its own: what it
computes from the state it is started in.  It is not part of `PushAndPullModel` as embedded
here. -/
def cpuLambdaBody {σ : Type} (S : ParameterServer σ) (srv : σ) (h : MultiversoHelper) :
    Option (σ × MultiversoHelper) :=
  match h.DecayCoefficient with
  | none => none
  | some factor =>
    let t_cacheIdx := h.m_bufferInUse
    let delta := cpuLambdaDelta h factor
    let r := forCount h.m_tableCount (addGetStep S h delta) (srv, h.m_cpuAsyncBuffer t_cacheIdx)
    some (r.1, { h with
      m_deltaArray := delta
      m_cpuAsyncBuffer := setSlot h.m_cpuAsyncBuffer t_cacheIdx r.2 })

/-- Delta array computed by the synchronous branch: the tensors are copied into the delta
array, then `slot 0 - delta`, then scaled by the factor. -/
def syncDelta (h : MultiversoHelper) (learnableNodes : List Matrix) (factor : ℚ) :
    Nat → ElemType :=
  let delta := forNodes learnableNodes
    (fun i mat d => writeAt d (h.offset i) (h.length i) mat.data) h.m_deltaArray
  let delta := transformMinus (h.m_cpuAsyncBuffer 0) h.m_totalModelSize delta delta
  transformScale delta h.m_totalModelSize delta factor

/-- Synchronous branch of `PushAndPullModel` (the `else` block). -/
def syncBranch {σ : Type} (S : ParameterServer σ) (srv : σ) (h : MultiversoHelper)
    (learnableNodes : List Matrix) : Option (σ × MultiversoHelper × List Matrix) :=
  match h.DecayCoefficient with
  | none => none
  | some factor =>
    let delta := syncDelta h learnableNodes factor
    let r := forCount h.m_tableCount (addGetStep S h delta) (srv, h.m_cpuAsyncBuffer 0)
    let nodes := forNodes learnableNodes
      (fun i mat (out : List Matrix) =>
        out.set i (mat.SetValue mat.numRows mat.numCols (readAt r.2 (h.offset i))))
      learnableNodes
    some (r.1, { h with
      m_deltaArray := delta
      m_cpuAsyncBuffer := setSlot h.m_cpuAsyncBuffer 0 r.2 }, nodes)

/-- Head of `PushAndPullModel`: the counter is incremented, the outstanding thread is joined
and the slot in use is advanced through the swap table. -/
def beginCall (h : MultiversoHelper) : MultiversoHelper :=
  let h1 := WaitAsyncBuffer { h with m_modelSyncCount := h.m_modelSyncCount + 1 }
  { h1 with m_bufferInUse := h1.m_cacheSwapIndex.getD h1.m_bufferInUse 0 }

/-- State of the engine when the asynchronous branch starts its thread: head of the call
done and tensors staged. -/
def stagedState (h : MultiversoHelper) (learnableNodes : List Matrix) : MultiversoHelper :=
  { beginCall h with m_gpuAsyncBuffer := (asyncStageLoop (beginCall h) learnableNodes).1 }

/-- Method `PushAndPullModel(learnableNodes)`: returns the server, the member state and the
tensors as they are when the call returns; no result when `DecayCoefficient` has none. -/
def PushAndPullModel {σ : Type} (S : ParameterServer σ) (srv : σ) (h : MultiversoHelper)
    (learnableNodes : List Matrix) : Option (σ × MultiversoHelper × List Matrix) :=
  if (beginCall h).m_isUseAsyncBuffered then
    match prefetchThreadBody S srv (stagedState h learnableNodes) with
    | none => none
    | some r =>
      some (r.1, { r.2 with m_prefetchThread := true },
        (asyncStageLoop (beginCall h) learnableNodes).2)
  else
    syncBranch S srv (beginCall h) learnableNodes

/-- Run of successive `PushAndPullModel` calls, one tensor list per call. -/
def runCalls {σ : Type} (S : ParameterServer σ) :
    σ → MultiversoHelper → List (List Matrix) → Option (σ × MultiversoHelper)
  | srv, h, [] => some (srv, h)
  | srv, h, nodes :: rest =>
    match PushAndPullModel S srv h nodes with
    | none => none
    | some r => runCalls S r.1 r.2.1 rest

/-- Values returned by the `Get` for table `widx` in a run of the `Add`/`Get` loop that starts
with server `srv` and buffer `buf`: the `Get` is issued right after the `Add` for the same
table, once the tables before it have been processed. -/
def fetched {σ : Type} (S : ParameterServer σ) (h : MultiversoHelper) (delta : Nat → ElemType)
    (srv : σ) (buf : Nat → ElemType) (widx : Nat) : Nat → ElemType :=
  (S.Get (addStep S h delta widx (forCount widx (addGetStep S h delta) (srv, buf)).1) widx
    (h.length widx)).2

/-- Instrumented server: behaves as `S` and records every `Add` (table, values) in call order. -/
def withLog {σ : Type} (S : ParameterServer σ) :
    ParameterServer (σ × List (Nat × List ElemType)) where
  Add s k v := (S.Add s.1 k v, s.2 ++ [(k, v)])
  Get s k n := (((S.Get s.1 k n).1, s.2), (S.Get s.1 k n).2)

/-- Modelled from the spec: the parameter server itself (multiverso) is not part of the
sources; section 6 gives its contract: `Add` accumulates the buffer into the shared value
of the table, `Get` fetches the current shared value.  State: table index and element index
to shared value. -/
def accumulatingServer : ParameterServer (Nat → Nat → ElemType) where
  Add s k v := fun t j => if t = k then s t j + v.getD j 0 else s t j
  Get s k _ := (s, s k)

/-- Modelled from the spec: `GlobalBarrier()` blocks every worker until all have called it, so
in a run of `InitModel` on several workers every worker's pushes precede every worker's
pulls.  Each worker is given by its member state and its tensors. -/
def InitModel_allWorkers {σ : Type} (S : ParameterServer σ) (srv : σ)
    (workers : List (MultiversoHelper × List Matrix)) : σ × List MultiversoHelper :=
  let pushed := workers.foldl
    (fun (acc : σ × List MultiversoHelper) w =>
      let r := InitModel_push S acc.1 w.1 w.2
      (r.1, acc.2 ++ [r.2]))
    (srv, [])
  pushed.2.foldl
    (fun (acc : σ × List MultiversoHelper) h =>
      let r := InitModel_pull S acc.1 h
      (r.1, acc.2 ++ [r.2]))
    (pushed.1, [])

/-- Registry invariant: lengths, table count and offsets are those `MultiversoInit` computes
for tensors with element counts `lens`. -/
structure Registered (h : MultiversoHelper) (lens : List Nat) : Prop where
  tableLength : h.m_tableLength = lens
  tableCount : h.m_tableCount = lens.length
  tableOffsets : h.m_tableOffsets = offsetsLoop lens 0

/-- Device buffer invariant: every slot holds one device matrix per table, with the element
count of the table (what `InitModel` leaves on a fresh engine). -/
def GpuShaped (h : MultiversoHelper) (lens : List Nat) : Prop :=
  ∀ s, s < h.m_localCacheNumber →
    (h.m_gpuAsyncBuffer s).map Matrix.GetNumElements = lens

/-- Configuration fields that no method changes after construction. -/
structure SameConfig (h h2 : MultiversoHelper) : Prop where
  async : h2.m_isUseAsyncBuffered = h.m_isUseAsyncBuffered
  swap : h2.m_cacheSwapIndex = h.m_cacheSwapIndex
  cacheNumber : h2.m_localCacheNumber = h.m_localCacheNumber
  adjustType : h2.m_adjustLearningRateAtBeginningType = h.m_adjustLearningRateAtBeginningType
  adjustCoefficient : h2.m_adjustCoefficient = h.m_adjustCoefficient
  adjustMBNumber : h2.m_adjustMBNumber = h.m_adjustMBNumber
  clients : h2.m_totalClientNumber = h.m_totalClientNumber
  tableLength : h2.m_tableLength = h.m_tableLength
  tableCount : h2.m_tableCount = h.m_tableCount
  tableOffsets : h2.m_tableOffsets = h.m_tableOffsets
  totalModelSize : h2.m_totalModelSize = h.m_totalModelSize

/-- Example tensors: two tables of `2 x 2` and `2 x 3` elements (lengths 4 and 6). -/
def exampleNodes (base : ℚ) : List Matrix :=
  [⟨2, 2, fun j => base + (j : ℚ)⟩, ⟨2, 3, fun j => base + 10 + (j : ℚ)⟩]

/-- Example engine: the constructor run on `exampleNodes 0` with zeroed buffers, one client
and no decay. -/
def exampleHelper (isAsyncBuffered : Bool) : MultiversoHelper :=
  match newMultiversoHelper false false (fun _ => 0) (fun _ _ => 0) (exampleNodes 0) 1
      isAsyncBuffered .None (1 / 5) 600 with
  | .ok h => h
  | .error _ => fieldInitialisers false (fun _ => 0) (fun _ _ => 0) 1 isAsyncBuffered .None 0 0

/-- Example worker of a two-client run: the constructor run on `exampleNodes 0` with zeroed
buffers, two clients, asynchronous mode and no decay. -/
def exampleWorker : MultiversoHelper :=
  match newMultiversoHelper false false (fun _ => 0) (fun _ _ => 0) (exampleNodes 0) 2
      true .None (1 / 5) 600 with
  | .ok h => h
  | .error _ => fieldInitialisers false (fun _ => 0) (fun _ _ => 0) 2 true .None 0 0

/-- Example run up to the first call: the asynchronous example engine after `InitModel` on
`exampleNodes 0` against the accumulating server with zero tables (server, member state). -/
def exampleStarted : (Nat → Nat → ElemType) × MultiversoHelper :=
  InitModel accumulatingServer (fun _ _ => 0) (exampleHelper true) (exampleNodes 0)

/-! ## Decay policy -/

theorem decay_linear_eq (c : ℚ) (w n : Nat) (hw : w ≠ 0) :
    DecayCoefficient .Linearly c w n =
      some (min 1 (max 0 (c + (1 - c) / (w : ℚ) * (n : ℚ)))) := by
  simp only [DecayCoefficient, if_neg hw]

theorem decay_staircase_eq (c : ℚ) (w n : Nat) (hw : w ≠ 0) :
    DecayCoefficient .Staircase c w n =
      some (min 1 (max 0 (c * (((n / w + 1 : Nat)) : ℚ)))) := by
  simp only [DecayCoefficient, if_neg hw]

/-- C6. For every adjust type, coefficient, window size and iteration count, the factor that
`DecayCoefficient` returns lies in `[0, 1]`; a factor is returned for every input except
`Staircase` with window `0`, where the integer division has no result. -/
theorem DecayCoefficient_bounded (ty : AdjustLearningRateatBeginning) (c : ℚ) (w n : Nat) :
    (DecayCoefficient ty c w n = none ∧ ty = .Staircase ∧ w = 0) ∨
      ∃ f, DecayCoefficient ty c w n = some f ∧ 0 ≤ f ∧ f ≤ 1 := by
  cases ty
  · right; exact ⟨1, rfl, by norm_num, le_refl _⟩
  · right
    by_cases hw : w = 0
    · by_cases hc : c < 1 ∧ 0 < n
      · exact ⟨1, by simp [DecayCoefficient, hw, hc], by norm_num, le_refl _⟩
      · exact ⟨0, by simp only [DecayCoefficient, hw, if_true, if_neg hc], le_refl _, by norm_num⟩
    · exact ⟨_, decay_linear_eq c w n hw, le_min (by norm_num) (le_max_left _ _),
        min_le_left _ _⟩
  · by_cases hw : w = 0
    · left; exact ⟨by simp [DecayCoefficient, hw], rfl, hw⟩
    · right
      exact ⟨_, decay_staircase_eq c w n hw, le_min (by norm_num) (le_max_left _ _),
        min_le_left _ _⟩

/-- C7. For `Linearly`, a coefficient in `[0, 1]` and a positive window, `DecayCoefficient`
returns a factor at every iteration count and the factor is non-decreasing in the count. -/
theorem DecayCoefficient_linear_monotone (c : ℚ) (w m n : Nat) (_h0 : 0 ≤ c) (h1 : c ≤ 1)
    (hw : 0 < w) (hmn : m ≤ n) :
    ∃ fm fn, DecayCoefficient .Linearly c w m = some fm ∧
      DecayCoefficient .Linearly c w n = some fn ∧ fm ≤ fn := by
  have hw0 : w ≠ 0 := Nat.pos_iff_ne_zero.mp hw
  refine ⟨_, _, decay_linear_eq c w m hw0, decay_linear_eq c w n hw0, ?_⟩
  have hs : 0 ≤ (1 - c) / (w : ℚ) := div_nonneg (by linarith) (by positivity)
  have hq : (m : ℚ) ≤ (n : ℚ) := by exact_mod_cast hmn
  have hle : c + (1 - c) / (w : ℚ) * (m : ℚ) ≤ c + (1 - c) / (w : ℚ) * (n : ℚ) := by
    have := mul_le_mul_of_nonneg_left hq hs
    linarith
  exact min_le_min (le_refl _) (max_le_max (le_refl _) hle)

/-- Witness of C7: coefficient `1/5`, window `600`, iterations `100 ≤ 300`. -/
theorem DecayCoefficient_linear_monotone_witness :
    ∃ fm fn, DecayCoefficient .Linearly (1 / 5) 600 100 = some fm ∧
      DecayCoefficient .Linearly (1 / 5) 600 300 = some fn ∧ fm ≤ fn :=
  DecayCoefficient_linear_monotone (1 / 5) 600 100 300 (by norm_num) (by norm_num)
    (by decide) (by decide)

/-- C8. For a positive window `DecayCoefficient` returns the factor of the specification
(`1` for `None`, the clamped line for `Linearly`, the clamped step with floor division for
`Staircase`), and the two concrete scenarios evaluate as stated. -/
theorem DecayCoefficient_eq_specDecay :
    (∀ (ty : AdjustLearningRateatBeginning) (c : ℚ) (w n : Nat), 0 < w →
      DecayCoefficient ty c w n = some (specDecay ty c w n)) ∧
    DecayCoefficient .Linearly (2 / 10) 600 0 = some (2 / 10) ∧
    DecayCoefficient .Linearly (2 / 10) 600 600 = some 1 ∧
    DecayCoefficient .Linearly (2 / 10) 600 1200 = some 1 ∧
    DecayCoefficient .Staircase (3 / 10) 100 50 = some (3 / 10) ∧
    DecayCoefficient .Staircase (3 / 10) 100 150 = some (6 / 10) := by
  refine ⟨?_, ?_, ?_, ?_, ?_, ?_⟩
  · intro ty c w n hw
    have hw0 : w ≠ 0 := Nat.pos_iff_ne_zero.mp hw
    cases ty
    · rfl
    · rw [decay_linear_eq c w n hw0]
      simp only [specDecay]
      rw [min_comm, max_comm]
    · rw [decay_staircase_eq c w n hw0]
      simp only [specDecay]
      rw [min_comm, max_comm]
      push_cast
      rfl
  all_goals norm_num [DecayCoefficient]

/-- Witness of C8: `Staircase`, coefficient `3/10`, window `100`, iteration `250`. -/
theorem DecayCoefficient_eq_specDecay_witness :
    DecayCoefficient .Staircase (3 / 10) 100 250 = some (specDecay .Staircase (3 / 10) 100 250) :=
  DecayCoefficient_eq_specDecay.1 .Staircase (3 / 10) 100 250 (by decide)

/-! ## Registry -/

theorem accumulate_small (xs : List Nat) (acc : Int) (h0 : 0 ≤ acc)
    (hs : acc + (xs.sum : Int) < 2 ^ 31) : accumulate xs acc = acc + (xs.sum : Int) := by
  induction xs generalizing acc with
  | nil => simp [accumulate]
  | cons x rest ih =>
    have hstep : toInt32 (toSizeT acc + x) = acc + (x : Int) := by
      simp only [List.sum_cons, Nat.cast_add] at hs
      have hr : (0 : Int) ≤ (rest.sum : Int) := by positivity
      have hx : (0 : Int) ≤ (x : Int) := by positivity
      unfold toInt32 toSizeT
      have e1 : (acc % 2 ^ 64).toNat = acc.toNat := by
        rw [Int.emod_eq_of_lt h0 (by omega)]
      rw [e1]
      have e2 : (acc.toNat + x) % 2 ^ 32 = acc.toNat + x := Nat.mod_eq_of_lt (by omega)
      rw [e2, if_pos (by omega)]
      omega
    have hrec := ih (acc + (x : Int)) (by positivity)
      (by simp only [List.sum_cons, Nat.cast_add] at hs; omega)
    simp only [accumulate, List.foldl_cons] at hrec ⊢
    rw [hstep, hrec]
    simp only [List.sum_cons, Nat.cast_add]
    ring

theorem toSizeT_accumulate_small (xs : List Nat) (hs : xs.sum < 2 ^ 31) :
    toSizeT (accumulate xs 0) = xs.sum := by
  have hsum : (0 : Int) + (xs.sum : Int) < 2 ^ 31 := by
    have : ((xs.sum : Nat) : Int) < ((2 ^ 31 : Nat) : Int) := by exact_mod_cast hs
    simpa using this
  rw [accumulate_small xs 0 (le_refl _) hsum]
  unfold toSizeT
  have h2 : (xs.sum : Int) < 2 ^ 64 := by omega
  rw [zero_add, Int.emod_eq_of_lt (by positivity) h2]
  exact Int.toNat_natCast _

theorem offsetsLoop_length (lens : List Nat) (idx : Nat) :
    (offsetsLoop lens idx).length = lens.length := by
  induction lens generalizing idx with
  | nil => rfl
  | cons len rest ih => simp [offsetsLoop, ih]

theorem offsetsLoop_getD (lens : List Nat) (idx k : Nat) (hk : k < lens.length) :
    (offsetsLoop lens idx).getD k 0 = idx + (lens.take k).sum := by
  induction lens generalizing idx k with
  | nil => simp at hk
  | cons len rest ih =>
    cases k with
    | zero => simp [offsetsLoop]
    | succ k =>
      have hk2 : k < rest.length := by simpa using hk
      simp only [offsetsLoop, List.getD_cons_succ, List.take_succ_cons, List.sum_cons]
      rw [ih (idx + len) k hk2]
      ring

theorem take_sum_succ (lens : List Nat) (k : Nat) :
    (lens.take (k + 1)).sum = (lens.take k).sum + lens.getD k 0 := by
  induction lens generalizing k with
  | nil => simp
  | cons len rest ih =>
    cases k with
    | zero => simp
    | succ k =>
      simp only [List.take_succ_cons, List.sum_cons, List.getD_cons_succ]
      rw [ih k]
      ring

theorem take_sum_mono (lens : List Nat) (k k2 : Nat) (hk : k ≤ k2) :
    (lens.take k).sum ≤ (lens.take k2).sum := by
  induction k2 with
  | zero =>
    have : k = 0 := by omega
    subst this
    exact le_refl _
  | succ m ih =>
    rcases Nat.lt_or_ge k (m + 1) with hlt | hge
    · have := ih (by omega)
      rw [take_sum_succ]
      omega
    · have : k = m + 1 := by omega
      subst this
      exact le_refl _

theorem take_sum_le_sum (lens : List Nat) (k : Nat) : (lens.take k).sum ≤ lens.sum := by
  have h := take_sum_mono lens k (max k lens.length) (le_max_left _ _)
  rwa [List.take_of_length_le (le_max_right _ _)] at h

theorem region_below (lens : List Nat) (k k2 : Nat) (hk : k < k2) :
    (lens.take k).sum + lens.getD k 0 ≤ (lens.take k2).sum := by
  rw [← take_sum_succ]
  exact take_sum_mono lens (k + 1) k2 hk

theorem Registered.offset_eq {h : MultiversoHelper} {lens : List Nat} (hr : Registered h lens)
    (k : Nat) (hk : k < lens.length) : h.offset k = (lens.take k).sum := by
  unfold MultiversoHelper.offset
  rw [hr.tableOffsets, offsetsLoop_getD lens 0 k hk, zero_add]

theorem Registered.length_eq {h : MultiversoHelper} {lens : List Nat} (hr : Registered h lens)
    (k : Nat) : h.length k = lens.getD k 0 := by
  unfold MultiversoHelper.length
  rw [hr.tableLength]

theorem Registered.disjoint {h : MultiversoHelper} {lens : List Nat} (hr : Registered h lens)
    (k k2 : Nat) (hk : k < k2) (hk2 : k2 < lens.length) :
    h.offset k + h.length k ≤ h.offset k2 := by
  rw [hr.offset_eq k (by omega), hr.offset_eq k2 hk2, hr.length_eq]
  exact region_below lens k k2 hk

theorem Registered.inside {h : MultiversoHelper} {lens : List Nat} (hr : Registered h lens)
    (k : Nat) (hk : k < lens.length) : h.offset k + h.length k ≤ lens.sum := by
  rw [hr.offset_eq k hk, hr.length_eq, ← take_sum_succ]
  exact take_sum_le_sum lens (k + 1)

theorem hostAllocFails_small (n : Nat) (hn : n < 2 ^ 31) : hostAllocFails n = false := by
  unfold hostAllocFails sizeofElemType
  have h1 : (4 * n) % 2 ^ 64 = 4 * n := Nat.mod_eq_of_lt (by omega)
  rw [h1]
  have h2 : ¬ 2 ^ 63 ≤ 4 * n := by omega
  exact decide_eq_false h2

theorem toInt32_range (n : Nat) : -2 ^ 31 ≤ toInt32 n ∧ toInt32 n < 2 ^ 31 := by
  unfold toInt32
  have hlt : n % 2 ^ 32 < 2 ^ 32 := Nat.mod_lt _ (by norm_num)
  split <;> omega

theorem accumulate_range (xs : List Nat) (init : Int) (h0 : -2 ^ 31 ≤ init ∧ init < 2 ^ 31) :
    -2 ^ 31 ≤ accumulate xs init ∧ accumulate xs init < 2 ^ 31 := by
  induction xs generalizing init with
  | nil => exact h0
  | cons x rest ih =>
    simp only [accumulate, List.foldl_cons]
    exact ih _ (toInt32_range _)

/-- The request of `MultiversoInit` is refused exactly when the `int` total is negative: the
total converted to `size_t` is then at least `2^64 - 2^31` elements, and otherwise it is
below `2^31` elements. -/
theorem hostAllocFails_iff_negative (xs : List Nat) :
    hostAllocFails (toSizeT (accumulate xs 0)) = true ↔ accumulate xs 0 < 0 := by
  obtain ⟨hlo, hhi⟩ := accumulate_range xs 0 (by norm_num)
  generalize accumulate xs 0 = x at hlo hhi
  unfold hostAllocFails toSizeT sizeofElemType
  rw [decide_eq_true_iff]
  constructor
  · intro hle
    by_contra hpos
    omega
  · intro hneg
    omega

theorem MultiversoInit_ok (ndebug : Bool) (h : MultiversoHelper) (nodes : List Matrix)
    (hflag : h.m_isInitialized = false)
    (halloc : hostAllocFails
      (toSizeT (accumulate (h.m_tableLength ++ nodes.map Matrix.GetNumElements) 0)) = false) :
    MultiversoInit ndebug h nodes = .ok { h with
      m_isInitialized := true
      m_matrixArray := nodes.map (fun m => (m.numRows, m.numCols))
      m_tableLength := h.m_tableLength ++ nodes.map Matrix.GetNumElements
      m_tableCount := (h.m_tableLength ++ nodes.map Matrix.GetNumElements).length
      m_totalModelSize :=
        toSizeT (accumulate (h.m_tableLength ++ nodes.map Matrix.GetNumElements) 0)
      m_tableOffsets := h.m_tableOffsets ++
        offsetsLoop (h.m_tableLength ++ nodes.map Matrix.GetNumElements) 0 } := by
  simp [MultiversoInit, hflag, halloc]

theorem MultiversoInit_alloc_error (ndebug : Bool) (h : MultiversoHelper) (nodes : List Matrix)
    (hflag : h.m_isInitialized = false)
    (halloc : hostAllocFails
      (toSizeT (accumulate (h.m_tableLength ++ nodes.map Matrix.GetNumElements) 0)) = true) :
    MultiversoInit ndebug h nodes = .error "cudaMallocHost" := by
  simp [MultiversoInit, hflag, halloc]

/-- Registry computed by the constructor whenever the host allocation is granted: lengths,
table count and offsets satisfy the registry invariant, and the pipeline fields are set. -/
theorem newMultiversoHelper_registered (ndebug : Bool) (d : Nat → ElemType)
    (b : Nat → Nat → ElemType) (nodes : List Matrix) (N : Int) (async : Bool)
    (ty : AdjustLearningRateatBeginning) (c : ℚ) (w : Nat)
    (halloc : hostAllocFails
      (toSizeT (accumulate (nodes.map Matrix.GetNumElements) 0)) = false) :
    ∃ h, newMultiversoHelper ndebug false d b nodes N async ty c w = .ok h ∧
      Registered h (nodes.map Matrix.GetNumElements) ∧
      h.m_totalModelSize = toSizeT (accumulate (nodes.map Matrix.GetNumElements) 0) ∧
      h.m_isUseAsyncBuffered = async ∧ h.m_bufferInUse = 0 ∧
      h.m_cacheSwapIndex = (if async then [1, 0] else [0]) ∧
      h.m_localCacheNumber = (if async then 2 else 1) ∧
      h.m_totalClientNumber = N ∧
      h.m_adjustLearningRateAtBeginningType = ty ∧ h.m_adjustMBNumber = w ∧
      (∀ s, h.m_gpuAsyncBuffer s = []) := by
  have hok := MultiversoInit_ok ndebug (fieldInitialisers false d b N async ty c w) nodes rfl
    (by simpa [fieldInitialisers] using halloc)
  refine ⟨_, hok, ⟨by simp [fieldInitialisers], by simp [fieldInitialisers],
    by simp [fieldInitialisers]⟩, by simp [fieldInitialisers], rfl, rfl, ?_, rfl, rfl, rfl, rfl,
    fun _ => rfl⟩
  cases async <;> rfl

/-- The constructor exits in the host allocation whenever the request is refused. -/
theorem newMultiversoHelper_alloc_error (ndebug : Bool) (d : Nat → ElemType)
    (b : Nat → Nat → ElemType) (nodes : List Matrix) (N : Int) (async : Bool)
    (ty : AdjustLearningRateatBeginning) (c : ℚ) (w : Nat)
    (halloc : hostAllocFails
      (toSizeT (accumulate (nodes.map Matrix.GetNumElements) 0)) = true) :
    newMultiversoHelper ndebug false d b nodes N async ty c w = .error "cudaMallocHost" :=
  MultiversoInit_alloc_error ndebug (fieldInitialisers false d b N async ty c w) nodes rfl
    (by simpa [fieldInitialisers] using halloc)

/-- Registry computed by the constructor for tensors whose total element count is below
`2^31`: the constructor returns, the total is the sum of the lengths, the offsets are its
exclusive prefix sums (`offset 0 = 0`, `offset (k + 1) = offset k + length k`), the regions
are pairwise disjoint and lie inside `[0, total)`. -/
theorem newMultiversoHelper_registry (ndebug : Bool) (d : Nat → ElemType)
    (b : Nat → Nat → ElemType) (nodes : List Matrix) (N : Int) (async : Bool)
    (ty : AdjustLearningRateatBeginning) (c : ℚ) (w : Nat)
    (hs : (nodes.map Matrix.GetNumElements).sum < 2 ^ 31) :
    ∃ h, newMultiversoHelper ndebug false d b nodes N async ty c w = .ok h ∧
      h.m_tableLength = nodes.map Matrix.GetNumElements ∧
      h.m_totalModelSize = (nodes.map Matrix.GetNumElements).sum ∧
      (∀ k, k < nodes.length → h.offset k = ((nodes.map Matrix.GetNumElements).take k).sum) ∧
      (∀ k, k + 1 < nodes.length → h.offset (k + 1) = h.offset k + h.length k) ∧
      (∀ k k2, k < k2 → k2 < nodes.length → h.offset k + h.length k ≤ h.offset k2) ∧
      (∀ k, k < nodes.length → h.offset k + h.length k ≤ h.m_totalModelSize) := by
  have hacc := toSizeT_accumulate_small _ hs
  obtain ⟨h, hok, hreg, htot0, _⟩ := newMultiversoHelper_registered ndebug d b nodes N async
    ty c w (by rw [hacc]; exact hostAllocFails_small _ hs)
  have htot : h.m_totalModelSize = (nodes.map Matrix.GetNumElements).sum := htot0.trans hacc
  have hlen : (nodes.map Matrix.GetNumElements).length = nodes.length := List.length_map _ _
  refine ⟨h, hok, hreg.tableLength, htot, ?_, ?_, ?_, ?_⟩
  · intro k hk
    exact hreg.offset_eq k (by rw [hlen]; exact hk)
  · intro k hk
    rw [hreg.offset_eq (k + 1) (by rw [hlen]; exact hk), hreg.offset_eq k (by rw [hlen]; omega),
      hreg.length_eq, take_sum_succ]
  · intro k k2 hk hk2
    exact hreg.disjoint k k2 hk (by rw [hlen]; exact hk2)
  · intro k hk
    rw [htot]
    exact hreg.inside k (by rw [hlen]; exact hk)

/-- C1 (failing input). For a single tensor of `65536 x 65536` elements the constructor
registers length `2^32` at offset `0`, allocates buffers of `0` elements and leaves
`m_totalModelSize = 0`: the `int` accumulator of `std::accumulate` wraps, so the total is
not the sum of the lengths and the region `[0, 2^32)` does not lie inside
`[0, m_totalModelSize)`. -/
theorem MultiversoInit_totalModelSize_wraps :
    ∃ h, newMultiversoHelper false false (fun _ => 0) (fun _ _ => 0)
        [⟨65536, 65536, fun _ => 0⟩] 1 true .None (1 / 5) 600 = .ok h ∧
      h.m_tableLength = [4294967296] ∧ h.m_tableOffsets = [0] ∧ h.m_totalModelSize = 0 ∧
      h.m_totalModelSize ≠ h.m_tableLength.sum ∧
      ¬ (h.offset 0 + h.length 0 ≤ h.m_totalModelSize) :=
  ⟨_, rfl, by decide, by decide, by decide, by decide, by decide⟩

/-- Evaluation of the constructor at lengths `2147483647` and `1`: the `int` total is
`-2^31`, the request is for `2^64 - 2^31` elements and the allocation is refused. -/
theorem newMultiversoHelper_negative_total :
    newMultiversoHelper false false (fun _ => 0) (fun _ _ => 0)
        [⟨2147483647, 1, fun _ => 0⟩, ⟨1, 1, fun _ => 0⟩] 1 true .None (1 / 5) 600
      = .error "cudaMallocHost" ∧
    toSizeT (accumulate [2147483647, 1] 0) = 2 ^ 64 - 2 ^ 31 :=
  ⟨newMultiversoHelper_alloc_error false (fun _ => 0) (fun _ _ => 0)
      [⟨2147483647, 1, fun _ => 0⟩, ⟨1, 1, fun _ => 0⟩] 1 true .None (1 / 5) 600 (by decide),
    by decide⟩

/-- The constructor never assigns `m_isInitialized` before `MultiversoInit` reads it: when
the member happens to read set, the constructor itself stops on the assertion. -/
theorem newMultiversoHelper_flag_reads_set (d : Nat → ElemType) (b : Nat → Nat → ElemType)
    (nodes : List Matrix) (N : Int) (async : Bool) (ty : AdjustLearningRateatBeginning) (c : ℚ)
    (w : Nat) :
    newMultiversoHelper false true d b nodes N async ty c w
      = .error "assert(!m_isInitialized)" := by
  simp [newMultiversoHelper, MultiversoInit, fieldInitialisers]

/-- C9 (counterexample). An invocation with the empty tensor list does not fail: on a clear
flag the constructor returns an initialised engine with no table and total size `0`.  And
with assertions compiled out (`NDEBUG`), invoking `MultiversoInit` again on that initialised
engine returns as well. -/
theorem MultiversoInit_accepts_empty_list :
    ∃ h, newMultiversoHelper false false (fun _ => 0) (fun _ _ => 0) [] 1 true .None (1 / 5) 600
        = .ok h ∧
      h.m_isInitialized = true ∧ h.m_tableCount = 0 ∧ h.m_totalModelSize = 0 ∧
      ∃ h2, MultiversoInit true h [⟨2, 2, fun _ => 1⟩] = .ok h2 :=
  ⟨_, rfl, rfl, rfl, by decide, _, rfl⟩

/-- C9 (amended). In a build that checks assertions, `MultiversoInit` fails on its assertion,
returning no registry, whenever the engine is already initialised; after any invocation that
returned, in either kind of build, the engine is initialised, so every further invocation
fails; and it returns only on an engine whose initialised flag reads clear. -/
theorem MultiversoInit_second_invocation_fails (h : MultiversoHelper) (nodes : List Matrix) :
    (h.m_isInitialized = true →
      MultiversoInit false h nodes = .error "assert(!m_isInitialized)") ∧
    (∀ ndebug h2, MultiversoInit ndebug h nodes = .ok h2 →
      h2.m_isInitialized = true ∧
      ∀ nodes2, MultiversoInit false h2 nodes2 = .error "assert(!m_isInitialized)") ∧
    (∀ h2, MultiversoInit false h nodes = .ok h2 → h.m_isInitialized = false) := by
  have hfail : ∀ (g : MultiversoHelper) (ns : List Matrix), g.m_isInitialized = true →
      MultiversoInit false g ns = .error "assert(!m_isInitialized)" := by
    intro g ns hg
    simp [MultiversoInit, hg]
  refine ⟨hfail h nodes, ?_, ?_⟩
  · intro ndebug h2 hok
    have hset : h2.m_isInitialized = true := by
      cases hflag : (!ndebug && h.m_isInitialized)
      · cases halloc : hostAllocFails
          (toSizeT (accumulate (h.m_tableLength ++ nodes.map Matrix.GetNumElements) 0))
        · simp only [MultiversoInit, hflag, halloc] at hok
          injection hok with hok
          rw [← hok]
        · simp [MultiversoInit, hflag, halloc] at hok
      · simp [MultiversoInit, hflag] at hok
    exact ⟨hset, fun nodes2 => hfail h2 nodes2 hset⟩
  · intro h2 hok
    cases hflag : h.m_isInitialized
    · rfl
    · rw [hfail h nodes hflag] at hok
      cases hok

/-- Witness of C9 (amended): the field initialisers of a synchronous engine with the flag
clear and one `2 x 2` tensor; the invocation returns, and a second one fails. -/
theorem MultiversoInit_second_invocation_fails_witness :
    ∃ h2, MultiversoInit false
        (fieldInitialisers false (fun _ => 0) (fun _ _ => 0) 1 false .None (1 / 5) 600)
        [⟨2, 2, fun _ => 1⟩] = .ok h2 ∧
      h2.m_isInitialized = true ∧
      MultiversoInit false h2 [] = .error "assert(!m_isInitialized)" ∧
      (fieldInitialisers false (fun _ => 0) (fun _ _ => 0) 1 false .None (1 / 5) 600).m_isInitialized
        = false :=
  ⟨_, rfl,
    ((MultiversoInit_second_invocation_fails
      (fieldInitialisers false (fun _ => 0) (fun _ _ => 0) 1 false .None (1 / 5) 600)
      [⟨2, 2, fun _ => 1⟩]).2.1 false _ rfl).1,
    ((MultiversoInit_second_invocation_fails
      (fieldInitialisers false (fun _ => 0) (fun _ _ => 0) 1 false .None (1 / 5) 600)
      [⟨2, 2, fun _ => 1⟩]).2.1 false _ rfl).2 [],
    (MultiversoInit_second_invocation_fails
      (fieldInitialisers false (fun _ => 0) (fun _ _ => 0) 1 false .None (1 / 5) 600)
      [⟨2, 2, fun _ => 1⟩]).2.2 _ rfl⟩

/-! ## Loops over tables and tensors -/

theorem forCount_zero {α : Type} (body : Nat → α → α) (s : α) : forCount 0 body s = s := by
  simp [forCount]

theorem forCount_succ {α : Type} (n : Nat) (body : Nat → α → α) (s : α) :
    forCount (n + 1) body s = body n (forCount n body s) := by
  simp [forCount, List.range_succ, List.foldl_append]

theorem writeAt_inside (dst : Nat → ElemType) (off n : Nat) (src : Nat → ElemType) (j : Nat)
    (hj : j < n) : writeAt dst off n src (off + j) = src j := by
  simp [writeAt, hj]

theorem writeAt_below (dst : Nat → ElemType) (off n : Nat) (src : Nat → ElemType) (x : Nat)
    (hx : x < off) : writeAt dst off n src x = dst x := by
  have : ¬ (off ≤ x ∧ x < off + n) := by omega
  simp [writeAt, this]

theorem getD_set {β : Type} (l : List β) (i j : Nat) (a d : β) :
    (l.set i a).getD j d = if i = j ∧ j < l.length then a else l.getD j d := by
  simp only [List.getD_eq_getElem?_getD, List.getElem?_set]
  by_cases hij : i = j
  · subst hij
    by_cases hl : i < l.length
    · simp [hl]
    · have hnone : l[i]? = none := List.getElem?_eq_none (by omega)
      simp [hl, hnone]
  · simp [hij]

/-- Regions written one after the other keep their contents: after `m` iterations of a loop
whose iteration `i` writes `len i` elements at `off i`, region `k < m` holds what iteration
`k` wrote. -/
theorem forCount_region {α : Type} (off len : Nat → Nat) (n : Nat)
    (hdisj : ∀ k k2, k < k2 → k2 < n → off k + len k ≤ off k2)
    (body : Nat → α → α) (buf : α → Nat → ElemType) (src : Nat → α → Nat → ElemType)
    (hbody : ∀ i s, buf (body i s) = writeAt (buf s) (off i) (len i) (src i s)) (s0 : α)
    (m : Nat) (hm : m ≤ n) (k : Nat) (hk : k < m) (j : Nat) (hj : j < len k) :
    buf (forCount m body s0) (off k + j) = src k (forCount k body s0) j := by
  induction m with
  | zero => omega
  | succ m ih =>
    rw [forCount_succ, hbody]
    rcases Nat.lt_or_ge k m with hlt | hge
    · have hd := hdisj k m hlt (by omega)
      rw [writeAt_below _ _ _ _ _ (by omega)]
      exact ih (by omega) hlt
    · have hkm : k = m := by omega
      subst hkm
      exact writeAt_inside _ _ _ _ _ hj

/-- Loop that replaces element `i` of a list at iteration `i`. -/
theorem forCount_set {α β : Type} (d : β) (body : Nat → α → α) (out : α → List β)
    (val : Nat → α → β) (hbody : ∀ i s, out (body i s) = (out s).set i (val i s)) (s0 : α)
    (m : Nat) :
    (out (forCount m body s0)).length = (out s0).length ∧
      ∀ k, (out (forCount m body s0)).getD k d =
        if k < m ∧ k < (out s0).length then val k (forCount k body s0) else (out s0).getD k d := by
  induction m with
  | zero => simp [forCount_zero]
  | succ m ih =>
    rw [forCount_succ, hbody]
    refine ⟨by rw [List.length_set]; exact ih.1, ?_⟩
    intro k
    rw [getD_set, ih.1, ih.2 k]
    by_cases hkm : m = k
    · subst hkm
      by_cases hl : m < (out s0).length
      · simp [hl]
      · simp [hl]
    · by_cases hlt : k < m
      · have : k < m + 1 := by omega
        simp [hkm, hlt, this]
      · have : ¬ k < m + 1 := by omega
        simp [hkm, hlt, this]

theorem WaitAsyncBuffer_eq (h : MultiversoHelper) :
    WaitAsyncBuffer h = { h with m_prefetchThread := false } := by
  unfold WaitAsyncBuffer
  cases hp : h.m_prefetchThread
  · cases h
    simp_all
  · simp

theorem beginCall_eq (h : MultiversoHelper) :
    beginCall h = { h with
      m_modelSyncCount := h.m_modelSyncCount + 1
      m_prefetchThread := false
      m_bufferInUse := h.m_cacheSwapIndex.getD h.m_bufferInUse 0 } := by
  simp only [beginCall, WaitAsyncBuffer_eq]

theorem beginCall_registered {h : MultiversoHelper} {lens : List Nat} (hr : Registered h lens) :
    Registered (beginCall h) lens := by
  rw [beginCall_eq]
  exact ⟨hr.tableLength, hr.tableCount, hr.tableOffsets⟩

theorem decay_some (ty : AdjustLearningRateatBeginning) (c : ℚ) (w n : Nat)
    (hw : ty = .Staircase → w ≠ 0) : ∃ f, DecayCoefficient ty c w n = some f := by
  cases ty
  · exact ⟨_, rfl⟩
  · by_cases h0 : w = 0
    · exact ⟨if c < 1 ∧ 0 < n then 1 else 0, by simp only [DecayCoefficient, h0, if_true]⟩
    · exact ⟨_, decay_linear_eq c w n h0⟩
  · exact ⟨_, decay_staircase_eq c w n (hw rfl)⟩

/-! ## Synchronous branch -/

theorem addGetLoop_region {σ : Type} (S : ParameterServer σ) (h : MultiversoHelper)
    (lens : List Nat) (hr : Registered h lens) (delta : Nat → ElemType) (srv : σ)
    (buf : Nat → ElemType) (k : Nat) (hk : k < lens.length) (j : Nat) (hj : j < h.length k) :
    (forCount h.m_tableCount (addGetStep S h delta) (srv, buf)).2 (h.offset k + j) =
      fetched S h delta srv buf k j :=
  forCount_region h.offset h.length lens.length hr.disjoint (addGetStep S h delta) Prod.snd
    (fun i s => (S.Get (addStep S h delta i s.1) i (h.length i)).2) (fun _ _ => rfl) (srv, buf)
    h.m_tableCount (by rw [hr.tableCount]) k (by rw [hr.tableCount]; exact hk) j hj

theorem shape_length {nodes : List Matrix} {lens : List Nat}
    (hshape : nodes.map Matrix.GetNumElements = lens) : nodes.length = lens.length := by
  rw [← hshape, List.length_map]

theorem shape_getD {nodes : List Matrix} {lens : List Nat}
    (hshape : nodes.map Matrix.GetNumElements = lens) (k : Nat) (hk : k < nodes.length) :
    lens.getD k 0 = (nodes.getD k default).GetNumElements := by
  rw [← hshape]
  simp only [List.getD_eq_getElem?_getD, List.getElem?_map]
  rw [List.getElem?_eq_getElem hk]
  rfl

theorem syncBranch_eq {σ : Type} (S : ParameterServer σ) (srv : σ) (h : MultiversoHelper)
    (nodes : List Matrix) (factor : ℚ) (hf : h.DecayCoefficient = some factor) :
    syncBranch S srv h nodes =
      some ((forCount h.m_tableCount (addGetStep S h (syncDelta h nodes factor))
          (srv, h.m_cpuAsyncBuffer 0)).1,
        { h with
          m_deltaArray := syncDelta h nodes factor
          m_cpuAsyncBuffer := setSlot h.m_cpuAsyncBuffer 0
            (forCount h.m_tableCount (addGetStep S h (syncDelta h nodes factor))
              (srv, h.m_cpuAsyncBuffer 0)).2 },
        forNodes nodes
          (fun i mat (out : List Matrix) =>
            out.set i (mat.SetValue mat.numRows mat.numCols
              (readAt (forCount h.m_tableCount (addGetStep S h (syncDelta h nodes factor))
                (srv, h.m_cpuAsyncBuffer 0)).2 (h.offset i))))
          nodes) := by
  simp only [syncBranch, hf]

/-- C2. In synchronous mode every call of `PushAndPullModel` returns, keeps the shape of
every tensor, and leaves in tensor `k` exactly the values that the `Get` for table `k`
issued in that call (right after that call's `Add` for table `k`) returned, which are also
the values slot 0 holds for table `k` when the call returns. -/
theorem sync_tensors_are_fetched {σ : Type} (S : ParameterServer σ) (srv : σ)
    (h : MultiversoHelper) (nodes : List Matrix) (lens : List Nat)
    (hreg : Registered h lens) (hshape : nodes.map Matrix.GetNumElements = lens)
    (hsync : h.m_isUseAsyncBuffered = false)
    (hw : h.m_adjustLearningRateAtBeginningType = .Staircase → h.m_adjustMBNumber ≠ 0) :
    ∃ srv2 h2 out, PushAndPullModel S srv h nodes = some (srv2, h2, out) ∧
      out.length = nodes.length ∧
      ∀ k, k < nodes.length →
        (out.getD k default).numRows = (nodes.getD k default).numRows ∧
        (out.getD k default).numCols = (nodes.getD k default).numCols ∧
        ∀ j, j < (nodes.getD k default).GetNumElements →
          (out.getD k default).data j =
            fetched S h h2.m_deltaArray srv (h.m_cpuAsyncBuffer 0) k j ∧
          (out.getD k default).data j = h2.m_cpuAsyncBuffer 0 (h.offset k + j) := by
  obtain ⟨factor, hf⟩ := decay_some h.m_adjustLearningRateAtBeginningType h.m_adjustCoefficient
    h.m_adjustMBNumber (h.m_modelSyncCount + 1) hw
  have hf2 : (beginCall h).DecayCoefficient = some factor := by
    rw [beginCall_eq]; exact hf
  have hpp : PushAndPullModel S srv h nodes = syncBranch S srv (beginCall h) nodes := by
    unfold PushAndPullModel
    rw [if_neg]
    rw [beginCall_eq]
    simp [hsync]
  rw [hpp, syncBranch_eq S srv (beginCall h) nodes factor hf2]
  have hregb := beginCall_registered hreg
  have hset := forCount_set (default : Matrix)
    (fun i (out : List Matrix) => out.set i
      ((nodes.getD i default).SetValue (nodes.getD i default).numRows
        (nodes.getD i default).numCols
        (readAt (forCount (beginCall h).m_tableCount
          (addGetStep S (beginCall h) (syncDelta (beginCall h) nodes factor))
          (srv, (beginCall h).m_cpuAsyncBuffer 0)).2 ((beginCall h).offset i))))
    id
    (fun i _ => (nodes.getD i default).SetValue (nodes.getD i default).numRows
        (nodes.getD i default).numCols
        (readAt (forCount (beginCall h).m_tableCount
          (addGetStep S (beginCall h) (syncDelta (beginCall h) nodes factor))
          (srv, (beginCall h).m_cpuAsyncBuffer 0)).2 ((beginCall h).offset i)))
    (fun _ _ => rfl) nodes nodes.length
  refine ⟨_, _, _, rfl, hset.1, ?_⟩
  intro k hk
  have hval := hset.2 k
  simp only [id, hk, and_self, if_true] at hval
  unfold forNodes
  rw [hval]
  refine ⟨rfl, rfl, ?_⟩
  intro j hj
  have hklen : k < lens.length := by rw [← shape_length hshape]; exact hk
  have hlen : (beginCall h).length k = (nodes.getD k default).GetNumElements := by
    rw [hregb.length_eq, shape_getD hshape k hk]
  have hreg2 := addGetLoop_region S (beginCall h) lens hregb
    (syncDelta (beginCall h) nodes factor) srv ((beginCall h).m_cpuAsyncBuffer 0) k hklen j
    (by rw [hlen]; exact hj)
  have hj2 : j < (nodes.getD k default).numRows * (nodes.getD k default).numCols := hj
  simp only [Matrix.SetValue, hj2, if_true, readAt]
  refine ⟨?_, ?_⟩
  · rw [hreg2]
    rw [beginCall_eq]
    rfl
  · simp only [setSlot, if_true]
    have hoff : (beginCall h).offset k = h.offset k := by rw [beginCall_eq]; rfl
    rw [hoff]

/-- Witness of C2: the example engine in synchronous mode on the accumulating server, one
call with tensors `exampleNodes 1`. -/
theorem sync_tensors_are_fetched_witness :
    ∃ srv2 h2 out,
      PushAndPullModel accumulatingServer (fun _ _ => 0) (exampleHelper false) (exampleNodes 1)
        = some (srv2, h2, out) ∧
      out.length = (exampleNodes 1).length ∧
      ∀ k, k < (exampleNodes 1).length →
        (out.getD k default).numRows = ((exampleNodes 1).getD k default).numRows ∧
        (out.getD k default).numCols = ((exampleNodes 1).getD k default).numCols ∧
        ∀ j, j < ((exampleNodes 1).getD k default).GetNumElements →
          (out.getD k default).data j =
            fetched accumulatingServer (exampleHelper false) h2.m_deltaArray (fun _ _ => 0)
              ((exampleHelper false).m_cpuAsyncBuffer 0) k j ∧
          (out.getD k default).data j =
            h2.m_cpuAsyncBuffer 0 ((exampleHelper false).offset k + j) :=
  sync_tensors_are_fetched accumulatingServer (fun _ _ => 0) (exampleHelper false)
    (exampleNodes 1) [4, 6] ⟨rfl, rfl, rfl⟩ rfl rfl (by intro hty; cases hty)

theorem PushAndPullModel_sync {σ : Type} (S : ParameterServer σ) (srv : σ)
    (h : MultiversoHelper) (nodes : List Matrix) (hsync : h.m_isUseAsyncBuffered = false) :
    PushAndPullModel S srv h nodes = syncBranch S srv (beginCall h) nodes := by
  unfold PushAndPullModel
  rw [if_neg]
  rw [beginCall_eq]
  simp [hsync]

theorem copyNodes_region (h : MultiversoHelper) (lens : List Nat) (hr : Registered h lens)
    (nodes : List Matrix) (hshape : nodes.map Matrix.GetNumElements = lens)
    (dst : Nat → ElemType) (k : Nat) (hk : k < lens.length) (j : Nat) (hj : j < h.length k) :
    forNodes nodes (fun i mat d => writeAt d (h.offset i) (h.length i) mat.data) dst
        (h.offset k + j) = (nodes.getD k default).data j :=
  forCount_region h.offset h.length lens.length hr.disjoint
    (fun i d => writeAt d (h.offset i) (h.length i) (nodes.getD i default).data) id
    (fun i _ => (nodes.getD i default).data) (fun _ _ => rfl) dst nodes.length
    (by rw [shape_length hshape]) k (by rw [shape_length hshape]; exact hk) j hj

theorem addGetLoop_log {σ : Type} (S : ParameterServer σ) (h : MultiversoHelper)
    (delta : Nat → ElemType) (srv : σ) (log0 : List (Nat × List ElemType))
    (buf : Nat → ElemType) (m : Nat) :
    (forCount m (addGetStep (withLog S) h delta) ((srv, log0), buf)).1.2 =
      log0 ++ (List.range m).map
        (fun k => (k, takeElems (readAt delta (h.offset k)) (h.length k))) := by
  induction m with
  | zero => simp [forCount_zero]
  | succ m ih =>
    rw [forCount_succ, List.range_succ, List.map_append, ← List.append_assoc, ← ih]
    rfl

theorem prefetchThreadBody_eq {σ : Type} (S : ParameterServer σ) (srv : σ)
    (h : MultiversoHelper) (factor : ℚ) (hf : h.DecayCoefficient = some factor) :
    prefetchThreadBody S srv h =
      some ((forCount h.m_tableCount (addGetStep S h (threadDelta h factor))
          (srv, h.m_cpuAsyncBuffer h.m_bufferInUse)).1,
        { h with
          m_deltaArray := threadDelta h factor
          m_cpuAsyncBuffer := setSlot h.m_cpuAsyncBuffer h.m_bufferInUse
            (forCount h.m_tableCount (addGetStep S h (threadDelta h factor))
              (srv, h.m_cpuAsyncBuffer h.m_bufferInUse)).2
          m_gpuAsyncBuffer := setSlot h.m_gpuAsyncBuffer h.m_bufferInUse
            (hostToDevice h
              (forCount h.m_tableCount (addGetStep S h (threadDelta h factor))
                (srv, h.m_cpuAsyncBuffer h.m_bufferInUse)).2
              (h.m_gpuAsyncBuffer h.m_bufferInUse)) }) := by
  simp only [prefetchThreadBody, hf]

theorem PushAndPullModel_async {σ : Type} (S : ParameterServer σ) (srv : σ)
    (h : MultiversoHelper) (nodes : List Matrix) (factor : ℚ)
    (hasync : h.m_isUseAsyncBuffered = true)
    (hf : DecayCoefficient h.m_adjustLearningRateAtBeginningType h.m_adjustCoefficient
      h.m_adjustMBNumber (h.m_modelSyncCount + 1) = some factor) :
    PushAndPullModel S srv h nodes =
      some ((forCount (stagedState h nodes).m_tableCount
          (addGetStep S (stagedState h nodes) (threadDelta (stagedState h nodes) factor))
          (srv, (stagedState h nodes).m_cpuAsyncBuffer (stagedState h nodes).m_bufferInUse)).1,
        { stagedState h nodes with
          m_deltaArray := threadDelta (stagedState h nodes) factor
          m_cpuAsyncBuffer := setSlot (stagedState h nodes).m_cpuAsyncBuffer
            (stagedState h nodes).m_bufferInUse
            (forCount (stagedState h nodes).m_tableCount
              (addGetStep S (stagedState h nodes) (threadDelta (stagedState h nodes) factor))
              (srv, (stagedState h nodes).m_cpuAsyncBuffer
                (stagedState h nodes).m_bufferInUse)).2
          m_gpuAsyncBuffer := setSlot (stagedState h nodes).m_gpuAsyncBuffer
            (stagedState h nodes).m_bufferInUse
            (hostToDevice (stagedState h nodes)
              (forCount (stagedState h nodes).m_tableCount
                (addGetStep S (stagedState h nodes) (threadDelta (stagedState h nodes) factor))
                (srv, (stagedState h nodes).m_cpuAsyncBuffer
                  (stagedState h nodes).m_bufferInUse)).2
              ((stagedState h nodes).m_gpuAsyncBuffer (stagedState h nodes).m_bufferInUse))
          m_prefetchThread := true },
        (asyncStageLoop (beginCall h) nodes).2) := by
  have hf2 : (stagedState h nodes).DecayCoefficient = some factor := by
    unfold stagedState
    rw [beginCall_eq]; exact hf
  have hb : (beginCall h).m_isUseAsyncBuffered = true := by
    rw [beginCall_eq]; exact hasync
  unfold PushAndPullModel
  rw [if_pos hb, prefetchThreadBody_eq S srv (stagedState h nodes) factor hf2]

theorem getD_numElements (g : List Matrix) (lens : List Nat)
    (hg : g.map Matrix.GetNumElements = lens) (k : Nat) :
    (g.getD k default).GetNumElements = lens.getD k 0 := by
  rw [← hg]
  simp only [List.getD_eq_getElem?_getD, List.getElem?_map]
  cases g[k]? <;> rfl

theorem map_set_numElements (g : List Matrix) (i : Nat) (x : Matrix)
    (hx : x.GetNumElements = (g.getD i default).GetNumElements) :
    (g.set i x).map Matrix.GetNumElements = g.map Matrix.GetNumElements := by
  apply List.ext_getElem?
  intro j
  simp only [List.getElem?_map, List.getElem?_set]
  by_cases hij : i = j
  · subst hij
    by_cases hl : i < g.length
    · rw [if_pos rfl, if_pos hl, List.getElem?_eq_getElem hl]
      simp only [Option.map_some']
      rw [hx, List.getD_eq_getElem _ _ hl]
    · rw [if_pos rfl, if_neg hl, List.getElem?_eq_none (by omega)]
  · rw [if_neg hij]

theorem asyncStage_other_slot (h : MultiversoHelper) (nodes : List Matrix) (v : Nat)
    (hne : v ≠ h.m_bufferInUse) (s0 : (Nat → List Matrix) × List Matrix) (m : Nat) :
    (forCount m (fun i s => asyncStageStep h i (nodes.getD i default) s) s0).1 v = s0.1 v := by
  induction m with
  | zero => rw [forCount_zero]
  | succ m ih =>
    rw [forCount_succ]
    simp only [asyncStageStep, setSlot, if_neg hne]
    exact ih

theorem asyncStageStep_shapes (h : MultiversoHelper) (i : Nat) (mat : Matrix)
    (st : (Nat → List Matrix) × List Matrix) (s : Nat) :
    ((asyncStageStep h i mat st).1 s).map Matrix.GetNumElements =
      (st.1 s).map Matrix.GetNumElements := by
  simp only [asyncStageStep, setSlot]
  by_cases hs : s = h.m_bufferInUse
  · rw [if_pos hs, hs]
    refine map_set_numElements _ _ _ ?_
    rfl
  · rw [if_neg hs]

theorem asyncStage_shapes (h : MultiversoHelper) (nodes : List Matrix)
    (s0 : (Nat → List Matrix) × List Matrix) (m : Nat) (s : Nat) :
    ((forCount m (fun i st => asyncStageStep h i (nodes.getD i default) st) s0).1 s).map
        Matrix.GetNumElements = (s0.1 s).map Matrix.GetNumElements := by
  induction m with
  | zero => rw [forCount_zero]
  | succ m ih =>
    rw [forCount_succ]
    exact (asyncStageStep_shapes h m (nodes.getD m default) _ s).trans ih

/-- Result of the staging loop when the slot pulled from differs from the slot staged into:
tensor `k` keeps its shape and takes its elements from device matrix `k` of the slot pulled
from, as that slot was before the loop. -/
theorem asyncStageLoop_spec (h : MultiversoHelper) (nodes : List Matrix)
    (hne : h.m_cacheSwapIndex.getD h.m_bufferInUse 0 ≠ h.m_bufferInUse) :
    (asyncStageLoop h nodes).2.length = nodes.length ∧
      ∀ k, k < nodes.length →
        (asyncStageLoop h nodes).2.getD k default =
          { nodes.getD k default with
            data := writeAt (nodes.getD k default).data 0 (nodes.getD k default).GetNumElements
              ((h.m_gpuAsyncBuffer (h.m_cacheSwapIndex.getD h.m_bufferInUse 0)).getD k
                default).data } := by
  have hset := forCount_set (default : Matrix)
    (fun i s => asyncStageStep h i (nodes.getD i default) s) Prod.snd
    (fun i (s : (Nat → List Matrix) × List Matrix) =>
      { nodes.getD i default with
        data := writeAt (nodes.getD i default).data 0 (nodes.getD i default).GetNumElements
          (((setSlot s.1 h.m_bufferInUse
            ((s.1 h.m_bufferInUse).set i
              { (s.1 h.m_bufferInUse).getD i default with
                data := writeAt ((s.1 h.m_bufferInUse).getD i default).data 0
                  (nodes.getD i default).GetNumElements (nodes.getD i default).data }))
            (h.m_cacheSwapIndex.getD h.m_bufferInUse 0)).getD i default).data })
    (fun _ _ => rfl) (h.m_gpuAsyncBuffer, nodes) nodes.length
  refine ⟨hset.1, ?_⟩
  intro k hk
  have hval := hset.2 k
  simp only [hk, and_self, if_true] at hval
  unfold asyncStageLoop forNodes
  rw [hval]
  simp only [setSlot, if_neg hne]
  rw [asyncStage_other_slot h nodes _ hne]

theorem stagedState_registered {h : MultiversoHelper} {lens : List Nat}
    (hr : Registered h lens) (nodes : List Matrix) : Registered (stagedState h nodes) lens := by
  have hb := beginCall_registered hr
  exact ⟨hb.tableLength, hb.tableCount, hb.tableOffsets⟩

theorem swap_two (i : Nat) (hi : i < 2) :
    ([1, 0] : List Nat).getD i 0 < 2 ∧ ([1, 0] : List Nat).getD i 0 ≠ i ∧
      ([1, 0] : List Nat).getD (([1, 0] : List Nat).getD i 0) 0 = i := by
  rcases (by omega : i = 0 ∨ i = 1) with h0 | h1
  · subst h0; decide
  · subst h1; decide

/-- Host-to-device loop of the thread body on a slot with one device matrix per table, of
the element counts `lens`: the shapes stay, and device matrix `k` holds the host slot's
region of table `k`. -/
theorem hostToDevice_spec (h : MultiversoHelper) (lens : List Nat) (hr : Registered h lens)
    (buf : Nat → ElemType) (g : List Matrix) (hg : g.map Matrix.GetNumElements = lens) :
    (hostToDevice h buf g).map Matrix.GetNumElements = lens ∧
      ∀ k, k < lens.length → ∀ j, j < lens.getD k 0 →
        ((hostToDevice h buf g).getD k default).data j = buf (h.offset k + j) := by
  have hlen : g.length = lens.length := by rw [← hg, List.length_map]
  have hset := fun m => forCount_set (default : Matrix)
    (fun widx (g : List Matrix) =>
      g.set widx { g.getD widx default with
        data := writeAt (g.getD widx default).data 0 (g.getD widx default).GetNumElements
          (readAt buf (h.offset widx)) })
    id
    (fun widx (g : List Matrix) =>
      { g.getD widx default with
        data := writeAt (g.getD widx default).data 0 (g.getD widx default).GetNumElements
          (readAt buf (h.offset widx)) })
    (fun _ _ => rfl) g m
  have hshape : ∀ m, (forCount m
      (fun widx (g : List Matrix) =>
        g.set widx { g.getD widx default with
          data := writeAt (g.getD widx default).data 0 (g.getD widx default).GetNumElements
            (readAt buf (h.offset widx)) }) g).map Matrix.GetNumElements
      = g.map Matrix.GetNumElements := by
    intro m
    induction m with
    | zero => rw [forCount_zero]
    | succ m ih =>
      rw [forCount_succ]
      refine Eq.trans (map_set_numElements _ _ _ ?_) ih
      rfl
  refine ⟨?_, ?_⟩
  · unfold hostToDevice
    rw [hshape, hg]
  · intro k hk j hj
    have hk2 : k < g.length := by rw [hlen]; exact hk
    have hval := (hset h.m_tableCount).2 k
    simp only [id] at hval
    rw [if_pos ⟨by rw [hr.tableCount]; exact hk, hk2⟩] at hval
    have hprev := (hset k).2 k
    simp only [id] at hprev
    rw [if_neg (by omega)] at hprev
    unfold hostToDevice
    rw [hval, hprev]
    have hn : (g.getD k default).GetNumElements = lens.getD k 0 := getD_numElements g lens hg k
    have hw := writeAt_inside (g.getD k default).data 0 (g.getD k default).GetNumElements
      (readAt buf (h.offset k)) j (by rw [hn]; exact hj)
    rw [Nat.zero_add] at hw
    simp only [hw, readAt]

/-- Device-to-host loop of the thread body on a slot with one device matrix per table, of
the element counts `lens`: the region of table `k` of the delta array holds device
matrix `k`. -/
theorem deviceToHost_region (h : MultiversoHelper) (lens : List Nat) (hr : Registered h lens)
    (g : List Matrix) (hg : g.map Matrix.GetNumElements = lens) (delta : Nat → ElemType)
    (k : Nat) (hk : k < lens.length) (j : Nat) (hj : j < lens.getD k 0) :
    deviceToHost h g delta (h.offset k + j) = (g.getD k default).data j := by
  have hn : ∀ w, (g.getD w default).GetNumElements = h.length w := by
    intro w
    rw [getD_numElements g lens hg w, hr.length_eq]
  exact forCount_region h.offset (fun w => (g.getD w default).GetNumElements) lens.length
    (by
      intro a b hab hb
      show h.offset a + (g.getD a default).GetNumElements ≤ h.offset b
      rw [hn a]
      exact hr.disjoint a b hab hb)
    (fun widx d => writeAt d (h.offset widx) (g.getD widx default).GetNumElements
      (g.getD widx default).data)
    id (fun w _ => (g.getD w default).data) (fun _ _ => rfl) delta h.m_tableCount
    (by rw [hr.tableCount]) k (by rw [hr.tableCount]; exact hk) j
    (by
      show j < (g.getD k default).GetNumElements
      rw [getD_numElements g lens hg k]; exact hj)

theorem addGetStep_congr {σ : Type} (S : ParameterServer σ) (h h2 : MultiversoHelper)
    (ho : h2.m_tableOffsets = h.m_tableOffsets) (hl : h2.m_tableLength = h.m_tableLength)
    (delta : Nat → ElemType) : addGetStep S h2 delta = addGetStep S h delta := by
  funext widx s
  simp only [addGetStep, addStep, MultiversoHelper.offset, MultiversoHelper.length, ho, hl]

theorem fetched_congr {σ : Type} (S : ParameterServer σ) (h h2 : MultiversoHelper)
    (ho : h2.m_tableOffsets = h.m_tableOffsets) (hl : h2.m_tableLength = h.m_tableLength)
    (delta : Nat → ElemType) (srv : σ) (buf : Nat → ElemType) (k : Nat) :
    fetched S h2 delta srv buf k = fetched S h delta srv buf k := by
  unfold fetched
  rw [addGetStep_congr S h h2 ho hl]
  simp only [addStep, MultiversoHelper.offset, MultiversoHelper.length, ho, hl]

theorem stagedState_gpu_shapes (h : MultiversoHelper) (nodes : List Matrix) (s : Nat) :
    ((stagedState h nodes).m_gpuAsyncBuffer s).map Matrix.GetNumElements =
      (h.m_gpuAsyncBuffer s).map Matrix.GetNumElements := by
  show ((asyncStageLoop (beginCall h) nodes).1 s).map Matrix.GetNumElements = _
  unfold asyncStageLoop forNodes
  rw [asyncStage_shapes, beginCall_eq]

theorem stagedState_gpu_other (h : MultiversoHelper) (nodes : List Matrix) (v : Nat)
    (hv : v ≠ h.m_cacheSwapIndex.getD h.m_bufferInUse 0) :
    (stagedState h nodes).m_gpuAsyncBuffer v = h.m_gpuAsyncBuffer v := by
  show (asyncStageLoop (beginCall h) nodes).1 v = _
  unfold asyncStageLoop forNodes
  rw [asyncStage_other_slot (beginCall h) nodes v (by rw [beginCall_eq]; exact hv), beginCall_eq]

/-- Claim C3. In asynchronous mode, for two successive calls of `PushAndPullModel` (call
`i - 1` with tensors `nodes1`, call `i` with tensors `nodes2`) from any state of the engine
in which every device slot holds one matrix per table: both calls return; tensor `k` keeps
its shape in call `i`, and the values call `i` leaves in it are the contents of device
matrix `k` of the slot on which the merge started by call `i - 1` ran, which are the contents
of the host slot of that merge, which are the values that merge's `Get` for table `k`
returned; they are the same whatever server, and whatever server state, call `i` runs its
own merge against; and the state after call `i - 1` satisfies the hypotheses again.  The
hypotheses on the shapes keep every copy inside the matrices and regions it addresses, and
`lens ≠ []` gives the thread the device matrix `0` whose device id it reads. -/
theorem async_tensors_are_previous_merge {σ : Type} (S : ParameterServer σ) (srv : σ)
    (h : MultiversoHelper) (nodes1 nodes2 : List Matrix) (lens : List Nat)
    (hreg : Registered h lens) (hgpu : GpuShaped h lens) (hcache : h.m_localCacheNumber = 2)
    (_hne : lens ≠ [])
    (_hshape1 : nodes1.map Matrix.GetNumElements = lens)
    (hshape2 : nodes2.map Matrix.GetNumElements = lens)
    (hasync : h.m_isUseAsyncBuffered = true) (hswap : h.m_cacheSwapIndex = [1, 0])
    (huse : h.m_bufferInUse < 2)
    (hw : h.m_adjustLearningRateAtBeginningType = .Staircase → h.m_adjustMBNumber ≠ 0) :
    ∃ srv1 h1 out1 srv2 h2 out2,
      PushAndPullModel S srv h nodes1 = some (srv1, h1, out1) ∧
      PushAndPullModel S srv1 h1 nodes2 = some (srv2, h2, out2) ∧
      out2.length = nodes2.length ∧
      (∀ k, k < nodes2.length →
        (out2.getD k default).numRows = (nodes2.getD k default).numRows ∧
        (out2.getD k default).numCols = (nodes2.getD k default).numCols ∧
        ∀ j, j < (nodes2.getD k default).GetNumElements →
          (out2.getD k default).data j =
            ((h1.m_gpuAsyncBuffer h1.m_bufferInUse).getD k default).data j ∧
          (out2.getD k default).data j =
            h1.m_cpuAsyncBuffer h1.m_bufferInUse (h1.offset k + j) ∧
          (out2.getD k default).data j =
            fetched S h h1.m_deltaArray srv (h.m_cpuAsyncBuffer h1.m_bufferInUse) k j) ∧
      (∀ (τ : Type) (S2 : ParameterServer τ) (srvB : τ),
        ∃ srvC hC, PushAndPullModel S2 srvB h1 nodes2 = some (srvC, hC, out2)) ∧
      Registered h1 lens ∧ GpuShaped h1 lens ∧ SameConfig h h1 ∧ h1.m_bufferInUse < 2 := by
  obtain ⟨f1, hf1⟩ := decay_some h.m_adjustLearningRateAtBeginningType h.m_adjustCoefficient
    h.m_adjustMBNumber (h.m_modelSyncCount + 1) hw
  obtain ⟨f2, hf2⟩ := decay_some h.m_adjustLearningRateAtBeginningType h.m_adjustCoefficient
    h.m_adjustMBNumber (h.m_modelSyncCount + 1 + 1) hw
  have hst := stagedState_registered hreg nodes1
  obtain ⟨hu1, hne1, hinv1⟩ := swap_two h.m_bufferInUse huse
  have hsuse : (stagedState h nodes1).m_bufferInUse = ([1, 0] : List Nat).getD h.m_bufferInUse 0 := by
    unfold stagedState
    rw [beginCall_eq]
    show h.m_cacheSwapIndex.getD h.m_bufferInUse 0 = _
    rw [hswap]
  have hscpu : (stagedState h nodes1).m_cpuAsyncBuffer = h.m_cpuAsyncBuffer := by
    unfold stagedState
    rw [beginCall_eq]
  have hsshape : ∀ s, s < 2 →
      ((stagedState h nodes1).m_gpuAsyncBuffer s).map Matrix.GetNumElements = lens := by
    intro s hs
    rw [stagedState_gpu_shapes]
    exact hgpu s (by rw [hcache]; exact hs)
  -- state after call `i - 1`
  have hcall1 := PushAndPullModel_async S srv h nodes1 f1 hasync hf1
  have h2d := hostToDevice_spec (stagedState h nodes1) lens hst
    (forCount (stagedState h nodes1).m_tableCount
      (addGetStep S (stagedState h nodes1) (threadDelta (stagedState h nodes1) f1))
      (srv, (stagedState h nodes1).m_cpuAsyncBuffer (stagedState h nodes1).m_bufferInUse)).2
    ((stagedState h nodes1).m_gpuAsyncBuffer (stagedState h nodes1).m_bufferInUse)
    (hsshape _ (by rw [hsuse]; exact hu1))
  generalize hh1 : ({ stagedState h nodes1 with
          m_deltaArray := threadDelta (stagedState h nodes1) f1
          m_cpuAsyncBuffer := setSlot (stagedState h nodes1).m_cpuAsyncBuffer
            (stagedState h nodes1).m_bufferInUse
            (forCount (stagedState h nodes1).m_tableCount
              (addGetStep S (stagedState h nodes1) (threadDelta (stagedState h nodes1) f1))
              (srv, (stagedState h nodes1).m_cpuAsyncBuffer
                (stagedState h nodes1).m_bufferInUse)).2
          m_gpuAsyncBuffer := setSlot (stagedState h nodes1).m_gpuAsyncBuffer
            (stagedState h nodes1).m_bufferInUse
            (hostToDevice (stagedState h nodes1)
              (forCount (stagedState h nodes1).m_tableCount
                (addGetStep S (stagedState h nodes1) (threadDelta (stagedState h nodes1) f1))
                (srv, (stagedState h nodes1).m_cpuAsyncBuffer
                  (stagedState h nodes1).m_bufferInUse)).2
              ((stagedState h nodes1).m_gpuAsyncBuffer (stagedState h nodes1).m_bufferInUse))
          m_prefetchThread := true } : MultiversoHelper) = h1 at hcall1
  have hcfg : SameConfig h h1 := by
    subst hh1
    unfold stagedState
    rw [beginCall_eq]
    exact ⟨rfl, rfl, rfl, rfl, rfl, rfl, rfl, rfl, rfl, rfl, rfl⟩
  have hsu : (stagedState h nodes1).m_bufferInUse = h1.m_bufferInUse := by
    subst hh1; rfl
  have huse1 : h1.m_bufferInUse = ([1, 0] : List Nat).getD h.m_bufferInUse 0 := by
    rw [← hsu]; exact hsuse
  have hcount1 : h1.m_modelSyncCount = h.m_modelSyncCount + 1 := by
    subst hh1
    unfold stagedState
    rw [beginCall_eq]
  have hdelta1 : h1.m_deltaArray = threadDelta (stagedState h nodes1) f1 := by
    subst hh1; rfl
  have hbuf1 : h1.m_cpuAsyncBuffer h1.m_bufferInUse =
      (forCount (stagedState h nodes1).m_tableCount
        (addGetStep S (stagedState h nodes1) (threadDelta (stagedState h nodes1) f1))
        (srv, (stagedState h nodes1).m_cpuAsyncBuffer (stagedState h nodes1).m_bufferInUse)).2 := by
    subst hh1
    simp only [setSlot, if_true]
  have hgpu1u : h1.m_gpuAsyncBuffer h1.m_bufferInUse =
      hostToDevice (stagedState h nodes1)
        (forCount (stagedState h nodes1).m_tableCount
          (addGetStep S (stagedState h nodes1) (threadDelta (stagedState h nodes1) f1))
          (srv, (stagedState h nodes1).m_cpuAsyncBuffer
            (stagedState h nodes1).m_bufferInUse)).2
        ((stagedState h nodes1).m_gpuAsyncBuffer (stagedState h nodes1).m_bufferInUse) := by
    subst hh1
    simp only [setSlot, if_true]
  have hgpu1v : ∀ v, v ≠ h1.m_bufferInUse →
      h1.m_gpuAsyncBuffer v = (stagedState h nodes1).m_gpuAsyncBuffer v := by
    intro v hv
    subst hh1
    have hv2 : v ≠ (stagedState h nodes1).m_bufferInUse := hv
    simp only [setSlot, if_neg hv2]
  have hreg1 : Registered h1 lens :=
    ⟨hcfg.tableLength.trans hreg.tableLength, hcfg.tableCount.trans hreg.tableCount,
      hcfg.tableOffsets.trans hreg.tableOffsets⟩
  have hshaped1 : GpuShaped h1 lens := by
    intro s hs
    rw [hcfg.cacheNumber, hcache] at hs
    by_cases hsu2 : s = h1.m_bufferInUse
    · rw [hsu2, hgpu1u]
      exact h2d.1
    · rw [hgpu1v s hsu2]
      exact hsshape s hs
  have hasync1 : h1.m_isUseAsyncBuffered = true := hcfg.async.trans hasync
  have hswap1 : h1.m_cacheSwapIndex = [1, 0] := hcfg.swap.trans hswap
  have hf2b : DecayCoefficient h1.m_adjustLearningRateAtBeginningType h1.m_adjustCoefficient
      h1.m_adjustMBNumber (h1.m_modelSyncCount + 1) = some f2 := by
    rw [hcfg.adjustType, hcfg.adjustCoefficient, hcfg.adjustMBNumber, hcount1]; exact hf2
  have huse1lt : h1.m_bufferInUse < 2 := by rw [huse1]; exact hu1
  obtain ⟨hu2, hne2, hinv2⟩ := swap_two h1.m_bufferInUse huse1lt
  -- the staging loop of call `i`
  have hbne : (beginCall h1).m_cacheSwapIndex.getD (beginCall h1).m_bufferInUse 0 ≠
      (beginCall h1).m_bufferInUse := by
    rw [beginCall_eq]
    show h1.m_cacheSwapIndex.getD (h1.m_cacheSwapIndex.getD h1.m_bufferInUse 0) 0 ≠
      h1.m_cacheSwapIndex.getD h1.m_bufferInUse 0
    rw [hswap1, hinv2]
    exact fun e => hne2 e.symm
  have hstage := asyncStageLoop_spec (beginCall h1) nodes2 hbne
  have hpull : (beginCall h1).m_gpuAsyncBuffer
      ((beginCall h1).m_cacheSwapIndex.getD (beginCall h1).m_bufferInUse 0) =
      h1.m_gpuAsyncBuffer h1.m_bufferInUse := by
    rw [beginCall_eq]
    show h1.m_gpuAsyncBuffer
      (h1.m_cacheSwapIndex.getD (h1.m_cacheSwapIndex.getD h1.m_bufferInUse 0) 0) = _
    rw [hswap1, hinv2]
  refine ⟨_, h1, _, _, _, _, hcall1, PushAndPullModel_async S _ h1 nodes2 f2 hasync1 hf2b,
    hstage.1, ?_, ?_, hreg1, hshaped1, hcfg, huse1lt⟩
  · intro k hk
    rw [hstage.2 k hk, hpull]
    refine ⟨rfl, rfl, ?_⟩
    intro j hj
    have hklen : k < lens.length := by rw [← shape_length hshape2]; exact hk
    have hjlen : j < lens.getD k 0 := by rw [shape_getD hshape2 k hk]; exact hj
    have hwr := writeAt_inside (nodes2.getD k default).data 0
      (nodes2.getD k default).GetNumElements
      ((h1.m_gpuAsyncBuffer h1.m_bufferInUse).getD k default).data j hj
    rw [Nat.zero_add] at hwr
    have hdev : ((h1.m_gpuAsyncBuffer h1.m_bufferInUse).getD k default).data j =
        h1.m_cpuAsyncBuffer h1.m_bufferInUse (h1.offset k + j) := by
      have hoff1 : h1.offset k = (stagedState h nodes1).offset k := by
        unfold MultiversoHelper.offset
        rw [hreg1.tableOffsets, hst.tableOffsets]
      rw [hgpu1u, hbuf1, hoff1]
      exact h2d.2 k hklen j hjlen
    have hfetch : h1.m_cpuAsyncBuffer h1.m_bufferInUse (h1.offset k + j) =
        fetched S h h1.m_deltaArray srv (h.m_cpuAsyncBuffer h1.m_bufferInUse) k j := by
      have hoff1 : h1.offset k = (stagedState h nodes1).offset k := by
        unfold MultiversoHelper.offset
        rw [hreg1.tableOffsets, hst.tableOffsets]
      have hlen1 : j < (stagedState h nodes1).length k := by
        rw [hst.length_eq]; exact hjlen
      rw [hbuf1, hdelta1, hoff1, ← hsu, ← hscpu,
        ← fetched_congr S h (stagedState h nodes1)
          (hst.tableOffsets.trans hreg.tableOffsets.symm)
          (hst.tableLength.trans hreg.tableLength.symm)]
      exact addGetLoop_region S (stagedState h nodes1) lens hst _ srv _ k hklen j hlen1
    show writeAt _ _ _ _ j = _ ∧ writeAt _ _ _ _ j = _ ∧ writeAt _ _ _ _ j = _
    rw [hwr]
    exact ⟨rfl, hdev, hdev.trans hfetch⟩
  · intro τ S2 srvB
    exact ⟨_, _, PushAndPullModel_async S2 srvB h1 nodes2 f2 hasync1 hf2b⟩

theorem initGpuInner_eq (c : Nat) (mat : Matrix) (g : Nat → List Matrix) (s : Nat) :
    forCount c (fun j g => setSlot g j (g j ++ [mat])) g s =
      if s < c then g s ++ [mat] else g s := by
  induction c with
  | zero => rw [forCount_zero]; rfl
  | succ c ih =>
    rw [forCount_succ]
    simp only [setSlot]
    by_cases hs : s = c
    · subst hs
      rw [if_pos rfl, ih, if_neg (Nat.lt_irrefl s), if_pos (Nat.lt_succ_self s)]
    · rw [if_neg hs, ih]
      by_cases hlt : s < c
      · rw [if_pos hlt, if_pos (by omega)]
      · rw [if_neg hlt, if_neg (by omega)]

/-- Device buffers after `InitModel`: every slot below `m_localCacheNumber` has the tensors
appended, in order. -/
theorem initGpuBuffers_eq (h : MultiversoHelper) (nodes : List Matrix) (s : Nat) :
    initGpuBuffers h nodes s =
      if s < h.m_localCacheNumber then h.m_gpuAsyncBuffer s ++ nodes
      else h.m_gpuAsyncBuffer s := by
  have hgen : ∀ m, m ≤ nodes.length →
      forCount m
        (fun i g => forCount h.m_localCacheNumber
          (fun j g => setSlot g j (g j ++ [nodes.getD i default])) g)
        h.m_gpuAsyncBuffer s =
      if s < h.m_localCacheNumber then h.m_gpuAsyncBuffer s ++ nodes.take m
      else h.m_gpuAsyncBuffer s := by
    intro m
    induction m with
    | zero =>
      intro _
      rw [forCount_zero]
      simp only [List.take_zero, List.append_nil, ite_self]
    | succ m ih =>
      intro hm
      have hlt : m < nodes.length := hm
      rw [forCount_succ, initGpuInner_eq, ih (by omega)]
      by_cases hs : s < h.m_localCacheNumber
      · simp only [hs, if_true]
        rw [List.take_succ, List.getElem?_eq_getElem hlt, List.getD_eq_getElem _ _ hlt,
          List.append_assoc]
        rfl
      · simp only [hs, if_false]
  have hfin := hgen nodes.length (Nat.le_refl _)
  rw [List.take_length] at hfin
  exact hfin

/-- On an engine whose device slots are still empty, `InitModel` leaves in every slot one
device matrix per tensor, of the tensor's element count. -/
theorem InitModel_gpuShaped {σ : Type} (S : ParameterServer σ) (srv : σ)
    (h : MultiversoHelper) (nodes : List Matrix) (lens : List Nat)
    (hfresh : ∀ s, h.m_gpuAsyncBuffer s = [])
    (hshape : nodes.map Matrix.GetNumElements = lens) :
    GpuShaped (InitModel S srv h nodes).2 lens := by
  intro s hs
  have hs2 : s < h.m_localCacheNumber := hs
  show (initGpuBuffers h nodes s).map Matrix.GetNumElements = lens
  rw [initGpuBuffers_eq, if_pos hs2, hfresh, List.nil_append]
  exact hshape

/-- State in which the first call of `PushAndPullModel` finds an asynchronous engine: whenever
the constructor returns, the state after `InitModel` on the constructor's tensors satisfies
the registry invariant and the device buffer invariant, has two slots, the swap table
`[1, 0]` and slot `0` in use. -/
theorem InitModel_async_invariants {σ : Type} (S : ParameterServer σ) (srv : σ)
    (ndebug : Bool) (d : Nat → ElemType) (b : Nat → Nat → ElemType) (nodes0 : List Matrix)
    (N : Int) (ty : AdjustLearningRateatBeginning) (c : ℚ) (w : Nat)
    (halloc : hostAllocFails
      (toSizeT (accumulate (nodes0.map Matrix.GetNumElements) 0)) = false) :
    ∃ h, newMultiversoHelper ndebug false d b nodes0 N true ty c w = .ok h ∧
      Registered (InitModel S srv h nodes0).2 (nodes0.map Matrix.GetNumElements) ∧
      GpuShaped (InitModel S srv h nodes0).2 (nodes0.map Matrix.GetNumElements) ∧
      (InitModel S srv h nodes0).2.m_localCacheNumber = 2 ∧
      (InitModel S srv h nodes0).2.m_isUseAsyncBuffered = true ∧
      (InitModel S srv h nodes0).2.m_cacheSwapIndex = [1, 0] ∧
      (InitModel S srv h nodes0).2.m_bufferInUse = 0 := by
  obtain ⟨h, hok, hreg, _, hasync, huse, hswap, hnum, _, _, _, hfresh⟩ :=
    newMultiversoHelper_registered ndebug d b nodes0 N true ty c w halloc
  exact ⟨h, hok, ⟨hreg.tableLength, hreg.tableCount, hreg.tableOffsets⟩,
    InitModel_gpuShaped S srv h nodes0 _ hfresh rfl, hnum, hasync, hswap, huse⟩

/-- Witness of C3: the asynchronous example engine after `InitModel`, on the accumulating
server, calls with tensors `exampleNodes 1` then `exampleNodes 2`. -/
theorem async_tensors_are_previous_merge_witness :
    ∃ srv1 h1 out1 srv2 h2 out2,
      PushAndPullModel accumulatingServer exampleStarted.1 exampleStarted.2 (exampleNodes 1)
        = some (srv1, h1, out1) ∧
      PushAndPullModel accumulatingServer srv1 h1 (exampleNodes 2) = some (srv2, h2, out2) ∧
      out2.length = (exampleNodes 2).length ∧
      (∀ k, k < (exampleNodes 2).length →
        (out2.getD k default).numRows = ((exampleNodes 2).getD k default).numRows ∧
        (out2.getD k default).numCols = ((exampleNodes 2).getD k default).numCols ∧
        ∀ j, j < ((exampleNodes 2).getD k default).GetNumElements →
          (out2.getD k default).data j =
            ((h1.m_gpuAsyncBuffer h1.m_bufferInUse).getD k default).data j ∧
          (out2.getD k default).data j =
            h1.m_cpuAsyncBuffer h1.m_bufferInUse (h1.offset k + j) ∧
          (out2.getD k default).data j =
            fetched accumulatingServer exampleStarted.2 h1.m_deltaArray exampleStarted.1
              (exampleStarted.2.m_cpuAsyncBuffer h1.m_bufferInUse) k j) ∧
      (∀ (τ : Type) (S2 : ParameterServer τ) (srvB : τ),
        ∃ srvC hC, PushAndPullModel S2 srvB h1 (exampleNodes 2) = some (srvC, hC, out2)) ∧
      Registered h1 [4, 6] ∧ GpuShaped h1 [4, 6] ∧ SameConfig exampleStarted.2 h1 ∧
      h1.m_bufferInUse < 2 :=
  async_tensors_are_previous_merge accumulatingServer exampleStarted.1 exampleStarted.2
    (exampleNodes 1) (exampleNodes 2) [4, 6] ⟨rfl, rfl, rfl⟩
    (InitModel_gpuShaped accumulatingServer (fun _ _ => 0) (exampleHelper true) (exampleNodes 0)
      [4, 6] (fun _ => rfl) rfl)
    rfl (by decide) rfl rfl rfl rfl (by decide) (by intro hty; cases hty)

theorem asyncStage_staged (h : MultiversoHelper) (nodes : List Matrix) (k : Nat)
    (hk : k < nodes.length) (hk2 : k < (h.m_gpuAsyncBuffer h.m_bufferInUse).length) (j : Nat)
    (hj : j < (nodes.getD k default).GetNumElements) :
    (((asyncStageLoop h nodes).1 h.m_bufferInUse).getD k default).data j =
      (nodes.getD k default).data j := by
  have hset := forCount_set (default : Matrix)
    (fun i s => asyncStageStep h i (nodes.getD i default) s)
    (fun s => s.1 h.m_bufferInUse)
    (fun i (s : (Nat → List Matrix) × List Matrix) =>
      { (s.1 h.m_bufferInUse).getD i default with
        data := writeAt ((s.1 h.m_bufferInUse).getD i default).data 0
          (nodes.getD i default).GetNumElements (nodes.getD i default).data })
    (fun i s => by simp only [asyncStageStep, setSlot, if_true])
    (h.m_gpuAsyncBuffer, nodes) nodes.length
  have hval := hset.2 k
  simp only [hk, hk2, and_self, if_true] at hval
  unfold asyncStageLoop forNodes
  rw [hval]
  have hw := writeAt_inside
    (((forCount k (fun i s => asyncStageStep h i (nodes.getD i default) s)
      (h.m_gpuAsyncBuffer, nodes)).1 h.m_bufferInUse).getD k default).data 0
    (nodes.getD k default).GetNumElements (nodes.getD k default).data j hj
  rw [Nat.zero_add] at hw
  exact hw

/-- Record of the `Add` calls of one asynchronous `PushAndPullModel` (device lambda): the
vector passed for table `k` is `factor * (slot - tensor)` over the region of table `k`, where
`slot` is the host slot the call switches to, as the call found it (the values the merge before
last fetched into it, or the values `InitModel` staged), and `tensor` the values supplied to
the call.  The sign is that of the synchronous branch. -/
theorem async_add_vectors {σ : Type} (S : ParameterServer σ) (srv : σ)
    (h : MultiversoHelper) (nodes : List Matrix) (lens : List Nat) (factor : ℚ)
    (hreg : Registered h lens) (hgpu : GpuShaped h lens) (hcache : h.m_localCacheNumber = 2)
    (htotal : h.m_totalModelSize = lens.sum)
    (hshape : nodes.map Matrix.GetNumElements = lens)
    (hasync : h.m_isUseAsyncBuffered = true) (hswap : h.m_cacheSwapIndex = [1, 0])
    (huse : h.m_bufferInUse < 2)
    (hf : DecayCoefficient h.m_adjustLearningRateAtBeginningType h.m_adjustCoefficient
      h.m_adjustMBNumber (h.m_modelSyncCount + 1) = some factor) :
    ∃ srv2 log h2 out,
      PushAndPullModel (withLog S) (srv, []) h nodes = some ((srv2, log), h2, out) ∧
      log = (List.range lens.length).map (fun k => (k, (List.range (lens.getD k 0)).map
        (fun j => factor *
          (h.m_cpuAsyncBuffer (([1, 0] : List Nat).getD h.m_bufferInUse 0) (h.offset k + j) -
            (nodes.getD k default).data j)))) := by
  have hst := stagedState_registered hreg nodes
  have hregb := beginCall_registered hreg
  obtain ⟨hu1, _, _⟩ := swap_two h.m_bufferInUse huse
  have hbuse : (beginCall h).m_bufferInUse = ([1, 0] : List Nat).getD h.m_bufferInUse 0 := by
    rw [beginCall_eq]
    show h.m_cacheSwapIndex.getD h.m_bufferInUse 0 = _
    rw [hswap]
  have hsuse : (stagedState h nodes).m_bufferInUse = (beginCall h).m_bufferInUse := rfl
  have hbshape : ((beginCall h).m_gpuAsyncBuffer (beginCall h).m_bufferInUse).map
      Matrix.GetNumElements = lens := by
    rw [hbuse, beginCall_eq]
    exact hgpu _ (by rw [hcache]; exact hu1)
  have hsshape : ((stagedState h nodes).m_gpuAsyncBuffer
      (stagedState h nodes).m_bufferInUse).map Matrix.GetNumElements = lens := by
    rw [stagedState_gpu_shapes, hsuse, hbuse]
    exact hgpu _ (by rw [hcache]; exact hu1)
  rw [PushAndPullModel_async (withLog S) (srv, []) h nodes factor hasync hf]
  refine ⟨_, _, _, _, rfl, ?_⟩
  rw [addGetLoop_log, List.nil_append, hst.tableCount]
  apply List.map_congr_left
  intro k hk
  have hk2 : k < lens.length := List.mem_range.mp hk
  rw [hst.length_eq]
  refine Prod.ext rfl ?_
  show takeElems _ _ = _
  unfold takeElems
  apply List.map_congr_left
  intro j hj
  have hj2 : j < lens.getD k 0 := List.mem_range.mp hj
  have hknodes : k < nodes.length := by rw [shape_length hshape]; exact hk2
  have hin : (stagedState h nodes).offset k + j < lens.sum := by
    have := hst.inside k hk2
    rw [hst.length_eq] at this
    omega
  have hd2h := deviceToHost_region (stagedState h nodes) lens hst
    ((stagedState h nodes).m_gpuAsyncBuffer (stagedState h nodes).m_bufferInUse) hsshape
    (stagedState h nodes).m_deltaArray k hk2 j hj2
  have hstaged := asyncStage_staged (beginCall h) nodes k hknodes
    (by
      have hl : ((beginCall h).m_gpuAsyncBuffer (beginCall h).m_bufferInUse).length
          = lens.length := by rw [← hbshape, List.length_map]
      rw [hl]; exact hk2)
    j (by rw [← shape_getD hshape k hknodes]; exact hj2)
  have htot2 : (stagedState h nodes).m_totalModelSize = lens.sum := by
    unfold stagedState
    rw [beginCall_eq]; exact htotal
  have hcpu : (stagedState h nodes).m_cpuAsyncBuffer (stagedState h nodes).m_bufferInUse =
      h.m_cpuAsyncBuffer (([1, 0] : List Nat).getD h.m_bufferInUse 0) := by
    rw [hsuse, hbuse]
    unfold stagedState
    rw [beginCall_eq]
  have hoff : (stagedState h nodes).offset k = h.offset k := by
    unfold MultiversoHelper.offset
    rw [hst.tableOffsets, hreg.tableOffsets]
  show threadDelta (stagedState h nodes) factor ((stagedState h nodes).offset k + j) = _
  simp only [threadDelta, transformScale, transformMinus, htot2, hin, if_true]
  rw [hd2h, hcpu, hoff]
  exact congrArg (fun x => factor * (h.m_cpuAsyncBuffer
    (([1, 0] : List Nat).getD h.m_bufferInUse 0) (h.offset k + j) - x)) hstaged

/-- Record of the `Add` calls of the lambda of the `CPUONLY` configuration, started in state
`h`: the vector passed for table `k` is `factor * (slot - delta)` over the region of table
`k`, with the slot in use (where that configuration stages the tensors) and the delta array
as `h` holds it: nothing copies the tensors into the delta array there, so the subtrahend is
what the previous merge left in it. -/
theorem cpuLambda_add_vectors {σ : Type} (S : ParameterServer σ) (srv : σ)
    (h : MultiversoHelper) (lens : List Nat) (factor : ℚ)
    (hreg : Registered h lens) (htotal : h.m_totalModelSize = lens.sum)
    (hf : h.DecayCoefficient = some factor) :
    ∃ srv2 log h2,
      cpuLambdaBody (withLog S) (srv, []) h = some ((srv2, log), h2) ∧
      log = (List.range lens.length).map (fun k => (k, (List.range (lens.getD k 0)).map
        (fun j => factor *
          (h.m_cpuAsyncBuffer h.m_bufferInUse (h.offset k + j) -
            h.m_deltaArray (h.offset k + j))))) := by
  simp only [cpuLambdaBody, hf]
  refine ⟨_, _, _, rfl, ?_⟩
  rw [addGetLoop_log, List.nil_append, hreg.tableCount]
  apply List.map_congr_left
  intro k hk
  have hk2 : k < lens.length := List.mem_range.mp hk
  rw [hreg.length_eq]
  refine Prod.ext rfl ?_
  show takeElems _ _ = _
  unfold takeElems
  apply List.map_congr_left
  intro j hj
  have hj2 : j < lens.getD k 0 := List.mem_range.mp hj
  have hin : h.offset k + j < lens.sum := by
    have := hreg.inside k hk2
    rw [hreg.length_eq] at this
    omega
  show cpuLambdaDelta h factor (h.offset k + j) = _
  simp only [cpuLambdaDelta, transformScale, transformMinus, htotal, hin, if_true]

/-- Evaluation of an asynchronous run: one `1 x 1` tensor, one client, no decay, the
accumulating server.  `InitModel` with value `5` leaves `5` on the server and in both device
slots.  The call with tensor value `7` returns the tensor with `5` (slot 0, untouched so far),
pushes `[5 - 7]` and fetches `3` into slot 1.  The call with tensor value `6` returns the
tensor with `3`, the value the merge of the call before fetched, while its own merge pushes
`[5 - 6]` and fetches `2`. -/
theorem async_run_example :
    ∃ h0 srv1 h1 srv2 log2 h2 out2 srv3 log3 h3 out3,
      newMultiversoHelper false false (fun _ => 0) (fun _ _ => 0) [⟨1, 1, fun _ => 5⟩] 1 true
        .None (1 / 5) 600 = .ok h0 ∧
      InitModel accumulatingServer (fun _ _ => 0) h0 [⟨1, 1, fun _ => 5⟩] = (srv1, h1) ∧
      srv1 0 0 = 5 ∧
      PushAndPullModel (withLog accumulatingServer) (srv1, []) h1 [⟨1, 1, fun _ => 7⟩]
        = some ((srv2, log2), h2, out2) ∧
      (out2.getD 0 default).data 0 = 5 ∧ log2 = [(0, [-2])] ∧ srv2 0 0 = 3 ∧
      h2.m_bufferInUse = 1 ∧ h2.m_cpuAsyncBuffer 1 0 = 3 ∧
      PushAndPullModel (withLog accumulatingServer) (srv2, []) h2 [⟨1, 1, fun _ => 6⟩]
        = some ((srv3, log3), h3, out3) ∧
      (out3.getD 0 default).data 0 = 3 ∧ log3 = [(0, [-1])] ∧ srv3 0 0 = 2 ∧
      h3.m_bufferInUse = 0 :=
  ⟨_, _, _, _, _, _, _, _, _, _, _, rfl, rfl, by decide!, rfl, by decide!, by decide!,
    by decide!, rfl, by decide!, rfl, by decide!, by decide!, by decide!, rfl⟩

/-! ## Slot alternation -/

theorem InitModel_config {σ : Type} (S : ParameterServer σ) (srv : σ) (h : MultiversoHelper)
    (nodes : List Matrix) :
    SameConfig h (InitModel S srv h nodes).2 ∧
      (InitModel S srv h nodes).2.m_bufferInUse = h.m_bufferInUse :=
  ⟨⟨rfl, rfl, rfl, rfl, rfl, rfl, rfl, rfl, rfl, rfl, rfl⟩, rfl⟩

theorem PushAndPullModel_some {σ : Type} (S : ParameterServer σ) (srv : σ)
    (h : MultiversoHelper) (nodes : List Matrix)
    (hw : h.m_adjustLearningRateAtBeginningType = .Staircase → h.m_adjustMBNumber ≠ 0) :
    ∃ srv2 h2 out, PushAndPullModel S srv h nodes = some (srv2, h2, out) ∧
      SameConfig h h2 ∧ h2.m_bufferInUse = h.m_cacheSwapIndex.getD h.m_bufferInUse 0 := by
  obtain ⟨f, hf⟩ := decay_some h.m_adjustLearningRateAtBeginningType h.m_adjustCoefficient
    h.m_adjustMBNumber (h.m_modelSyncCount + 1) hw
  cases hasync : h.m_isUseAsyncBuffered
  · have hf2 : (beginCall h).DecayCoefficient = some f := by
      rw [beginCall_eq]; exact hf
    refine ⟨_, _, _, (PushAndPullModel_sync S srv h nodes hasync).trans
      (syncBranch_eq S srv (beginCall h) nodes f hf2), ?_, ?_⟩
    · rw [beginCall_eq]
      exact ⟨rfl, rfl, rfl, rfl, rfl, rfl, rfl, rfl, rfl, rfl, rfl⟩
    · rw [beginCall_eq]
  · refine ⟨_, _, _, PushAndPullModel_async S srv h nodes f hasync hf, ?_, ?_⟩
    · unfold stagedState
      rw [beginCall_eq]
      exact ⟨rfl, rfl, rfl, rfl, rfl, rfl, rfl, rfl, rfl, rfl, rfl⟩
    · unfold stagedState
      rw [beginCall_eq]

theorem runCalls_async_slot {σ : Type} (S : ParameterServer σ) (calls : List (List Matrix)) :
    ∀ (srv : σ) (h : MultiversoHelper),
      (h.m_adjustLearningRateAtBeginningType = .Staircase → h.m_adjustMBNumber ≠ 0) →
      h.m_cacheSwapIndex = [1, 0] → h.m_bufferInUse < 2 →
      ∃ srv2 h2, runCalls S srv h calls = some (srv2, h2) ∧
        h2.m_cacheSwapIndex = [1, 0] ∧
        h2.m_bufferInUse = (h.m_bufferInUse + calls.length) % 2 := by
  induction calls with
  | nil =>
    intro srv h _ hswap huse
    exact ⟨srv, h, rfl, hswap, by simp only [List.length_nil]; omega⟩
  | cons nodes rest ih =>
    intro srv h hw hswap huse
    obtain ⟨srv1, h1, out, hcall, hcfg, hslot⟩ := PushAndPullModel_some S srv h nodes hw
    obtain ⟨hu, _, _⟩ := swap_two h.m_bufferInUse huse
    have hslot2 : h1.m_bufferInUse = (h.m_bufferInUse + 1) % 2 := by
      rw [hslot, hswap]
      rcases (by omega : h.m_bufferInUse = 0 ∨ h.m_bufferInUse = 1) with e | e <;>
        rw [e] <;> rfl
    obtain ⟨srv2, h2, hrun, hswap2, hfin⟩ := ih srv1 h1
      (by rw [hcfg.adjustType, hcfg.adjustMBNumber]; exact hw) (hcfg.swap.trans hswap)
      (by rw [hslot, hswap]; exact hu)
    refine ⟨srv2, h2, ?_, hswap2, ?_⟩
    · simp only [runCalls, hcall]
      exact hrun
    · rw [hfin, hslot2, List.length_cons]
      omega

theorem runCalls_sync_slot {σ : Type} (S : ParameterServer σ) (calls : List (List Matrix)) :
    ∀ (srv : σ) (h : MultiversoHelper),
      (h.m_adjustLearningRateAtBeginningType = .Staircase → h.m_adjustMBNumber ≠ 0) →
      h.m_cacheSwapIndex = [0] → h.m_bufferInUse = 0 →
      ∃ srv2 h2, runCalls S srv h calls = some (srv2, h2) ∧
        h2.m_cacheSwapIndex = [0] ∧ h2.m_bufferInUse = 0 := by
  induction calls with
  | nil =>
    intro srv h _ hswap huse
    exact ⟨srv, h, rfl, hswap, huse⟩
  | cons nodes rest ih =>
    intro srv h hw hswap huse
    obtain ⟨srv1, h1, out, hcall, hcfg, hslot⟩ := PushAndPullModel_some S srv h nodes hw
    obtain ⟨srv2, h2, hrun, hswap2, hfin⟩ := ih srv1 h1
      (by rw [hcfg.adjustType, hcfg.adjustMBNumber]; exact hw) (hcfg.swap.trans hswap)
      (by rw [hslot, hswap, huse]; rfl)
    refine ⟨srv2, h2, ?_, hswap2, hfin⟩
    simp only [runCalls, hcall]
    exact hrun

theorem runCalls_config {σ : Type} (S : ParameterServer σ) (calls : List (List Matrix)) :
    ∀ (srv srv2 : σ) (h h2 : MultiversoHelper),
      runCalls S srv h calls = some (srv2, h2) → SameConfig h h2 := by
  induction calls with
  | nil =>
    intro srv srv2 h h2 hrun
    simp only [runCalls, Option.some.injEq, Prod.mk.injEq] at hrun
    rw [← hrun.2]
    exact ⟨rfl, rfl, rfl, rfl, rfl, rfl, rfl, rfl, rfl, rfl, rfl⟩
  | cons nodes rest ih =>
    intro srv srv2 h h2 hrun
    cases hcall : PushAndPullModel S srv h nodes with
    | none => simp [runCalls, hcall] at hrun
    | some r =>
      simp only [runCalls, hcall] at hrun
      have hstep : SameConfig h r.2.1 := by
        by_cases hw : h.m_adjustLearningRateAtBeginningType = .Staircase →
            h.m_adjustMBNumber ≠ 0
        · obtain ⟨srv1, h1, out, hc, hcfg, _⟩ := PushAndPullModel_some S srv h nodes hw
          rw [hc] at hcall
          simp only [Option.some.injEq] at hcall
          rw [← hcall]
          exact hcfg
        · exfalso
          have hty : h.m_adjustLearningRateAtBeginningType = .Staircase := by
            by_contra hne
            exact hw (fun e => absurd e hne)
          have hmb : h.m_adjustMBNumber = 0 := by
            by_contra hne
            exact hw (fun _ => hne)
          have hnone : PushAndPullModel S srv h nodes = none := by
            unfold PushAndPullModel
            have hd : ∀ hx : MultiversoHelper,
                hx.m_adjustLearningRateAtBeginningType = .Staircase → hx.m_adjustMBNumber = 0 →
                hx.DecayCoefficient = none := by
              intro hx e1 e2
              simp [MultiversoHelper.DecayCoefficient, DecayCoefficient, e1, e2]
            have hdb : (beginCall h).DecayCoefficient = none :=
              hd _ (by rw [beginCall_eq]; exact hty) (by rw [beginCall_eq]; exact hmb)
            have hds : (stagedState h nodes).DecayCoefficient = none :=
              hd _ (by unfold stagedState; rw [beginCall_eq]; exact hty)
                (by unfold stagedState; rw [beginCall_eq]; exact hmb)
            split
            · simp only [prefetchThreadBody, hds]
            · simp only [syncBranch, hdb]
          rw [hnone] at hcall
          cases hcall
      have hrest := ih r.1 srv2 r.2.1 h2 hrun
      exact ⟨hrest.async.trans hstep.async, hrest.swap.trans hstep.swap,
        hrest.cacheNumber.trans hstep.cacheNumber, hrest.adjustType.trans hstep.adjustType,
        hrest.adjustCoefficient.trans hstep.adjustCoefficient,
        hrest.adjustMBNumber.trans hstep.adjustMBNumber, hrest.clients.trans hstep.clients,
        hrest.tableLength.trans hstep.tableLength, hrest.tableCount.trans hstep.tableCount,
        hrest.tableOffsets.trans hstep.tableOffsets,
        hrest.totalModelSize.trans hstep.totalModelSize⟩

/-- Every state reached from the constructor by `InitModel` and any run of calls keeps the
registry invariant and the configuration of the constructor. -/
theorem reachable_registered {σ : Type} (S : ParameterServer σ) (srv srv2 : σ)
    (h h2 : MultiversoHelper) (nodes0 : List Matrix) (lens : List Nat)
    (calls : List (List Matrix)) (hreg : Registered h lens)
    (hrun : runCalls S (InitModel S srv h nodes0).1 (InitModel S srv h nodes0).2 calls
      = some (srv2, h2)) :
    Registered h2 lens ∧ SameConfig h h2 := by
  have hcfg := runCalls_config S calls _ _ _ _ hrun
  have hinit := (InitModel_config S srv h nodes0).1
  have hall : SameConfig h h2 :=
    ⟨hcfg.async.trans hinit.async, hcfg.swap.trans hinit.swap,
      hcfg.cacheNumber.trans hinit.cacheNumber, hcfg.adjustType.trans hinit.adjustType,
      hcfg.adjustCoefficient.trans hinit.adjustCoefficient,
      hcfg.adjustMBNumber.trans hinit.adjustMBNumber, hcfg.clients.trans hinit.clients,
      hcfg.tableLength.trans hinit.tableLength, hcfg.tableCount.trans hinit.tableCount,
      hcfg.tableOffsets.trans hinit.tableOffsets,
      hcfg.totalModelSize.trans hinit.totalModelSize⟩
  exact ⟨⟨hall.tableLength.trans hreg.tableLength, hall.tableCount.trans hreg.tableCount,
    hall.tableOffsets.trans hreg.tableOffsets⟩, hall⟩

/-- Claim C10. The constructor either exits in the host allocation (when the request is
refused) or returns an engine on which: the swap table is `(i + 1) mod m_localCacheNumber` on
every slot index.  With two slots (asynchronous) it sends each slot to the other one and is an
involution; after `InitModel` and any `n` calls of `PushAndPullModel` the slot in use is
`n mod 2` (so `1, 0, 1, 0, ...`) and differs from the slot the swap table pairs it with, which
is the slot pulled from.  With one slot (synchronous) the table is the identity and the slot
in use stays `0`. -/
theorem swapIndex_alternates {σ : Type} (S : ParameterServer σ) (srv : σ) (ndebug : Bool)
    (d : Nat → ElemType) (b : Nat → Nat → ElemType) (nodes0 : List Matrix) (N : Int)
    (async : Bool) (ty : AdjustLearningRateatBeginning) (c : ℚ) (w : Nat)
    (hw : ty = .Staircase → w ≠ 0) (calls : List (List Matrix)) :
    (hostAllocFails (toSizeT (accumulate (nodes0.map Matrix.GetNumElements) 0)) = true ∧
      newMultiversoHelper ndebug false d b nodes0 N async ty c w = .error "cudaMallocHost") ∨
    (hostAllocFails (toSizeT (accumulate (nodes0.map Matrix.GetNumElements) 0)) = false ∧
    ∃ h, newMultiversoHelper ndebug false d b nodes0 N async ty c w = .ok h ∧
      h.m_localCacheNumber = (if async then 2 else 1) ∧ h.m_bufferInUse = 0 ∧
      (∀ i, i < h.m_localCacheNumber →
        h.m_cacheSwapIndex.getD i 0 = (i + 1) % h.m_localCacheNumber) ∧
      (async = true → ∀ i, i < 2 → h.m_cacheSwapIndex.getD i 0 ≠ i ∧
        h.m_cacheSwapIndex.getD (h.m_cacheSwapIndex.getD i 0) 0 = i) ∧
      (async = false → h.m_cacheSwapIndex.getD 0 0 = 0) ∧
      ∃ srv2 h2, runCalls S (InitModel S srv h nodes0).1 (InitModel S srv h nodes0).2 calls
          = some (srv2, h2) ∧
        h2.m_cacheSwapIndex = h.m_cacheSwapIndex ∧
        h2.m_bufferInUse = (if async then calls.length % 2 else 0) ∧
        (async = true → h2.m_cacheSwapIndex.getD h2.m_bufferInUse 0 ≠ h2.m_bufferInUse)) := by
  cases halloc : hostAllocFails (toSizeT (accumulate (nodes0.map Matrix.GetNumElements) 0))
  swap
  · exact Or.inl ⟨rfl, newMultiversoHelper_alloc_error ndebug d b nodes0 N async ty c w halloc⟩
  refine Or.inr ⟨rfl, ?_⟩
  obtain ⟨h, hok, _, _, _, huse, hswap, hnum, _, hty, hmb, _⟩ :=
    newMultiversoHelper_registered ndebug d b nodes0 N async ty c w halloc
  obtain ⟨hcfg, huse0⟩ := InitModel_config S srv h nodes0
  have hw2 : (InitModel S srv h nodes0).2.m_adjustLearningRateAtBeginningType = .Staircase →
      (InitModel S srv h nodes0).2.m_adjustMBNumber ≠ 0 := by
    rw [hcfg.adjustType, hcfg.adjustMBNumber, hty, hmb]; exact hw
  refine ⟨h, hok, hnum, huse, ?_, ?_, ?_, ?_⟩
  · intro i hi
    rw [hnum] at hi ⊢
    rw [hswap]
    cases async
    · have hi0 : i = 0 := by
        have : i < 1 := hi
        omega
      subst hi0; rfl
    · have hi2 : i < 2 := hi
      rcases (by omega : i = 0 ∨ i = 1) with e | e <;> subst e <;> rfl
  · intro ha i hi
    rw [hswap, ha]
    obtain ⟨_, hne, hinv⟩ := swap_two i hi
    exact ⟨hne, hinv⟩
  · intro ha
    rw [hswap, ha]; rfl
  · cases async
    · obtain ⟨srv2, h2, hrun, hswap2, hslot⟩ := runCalls_sync_slot S calls
        (InitModel S srv h nodes0).1 (InitModel S srv h nodes0).2 hw2
        (hcfg.swap.trans hswap) (huse0.trans huse)
      exact ⟨srv2, h2, hrun, hswap2.trans hswap.symm, hslot, fun hfalse => by cases hfalse⟩
    · obtain ⟨srv2, h2, hrun, hswap2, hslot⟩ := runCalls_async_slot S calls
        (InitModel S srv h nodes0).1 (InitModel S srv h nodes0).2 hw2
        (hcfg.swap.trans hswap) (by rw [huse0, huse]; decide)
      refine ⟨srv2, h2, hrun, hswap2.trans hswap.symm, ?_, ?_⟩
      · rw [hslot, huse0, huse, Nat.zero_add]; rfl
      · intro _
        have hlt : h2.m_bufferInUse < 2 := by
          rw [hslot]; exact Nat.mod_lt _ (by decide)
        rw [hswap2]
        exact (swap_two h2.m_bufferInUse hlt).2.1

/-- Witness of C10: asynchronous engine with `Staircase` decay and window `100`, three calls
on the accumulating server; the allocation is granted and the slot in use ends at `1`. -/
theorem swapIndex_alternates_witness :
    hostAllocFails (toSizeT (accumulate ((exampleNodes 0).map Matrix.GetNumElements) 0)) = false ∧
    ∃ h, newMultiversoHelper false false (fun _ => 0) (fun _ _ => 0) (exampleNodes 0) 1 true
        .Staircase (3 / 10) 100 = .ok h ∧
      h.m_localCacheNumber = (if true then 2 else 1) ∧ h.m_bufferInUse = 0 ∧
      (∀ i, i < h.m_localCacheNumber →
        h.m_cacheSwapIndex.getD i 0 = (i + 1) % h.m_localCacheNumber) ∧
      (true = true → ∀ i, i < 2 → h.m_cacheSwapIndex.getD i 0 ≠ i ∧
        h.m_cacheSwapIndex.getD (h.m_cacheSwapIndex.getD i 0) 0 = i) ∧
      (true = false → h.m_cacheSwapIndex.getD 0 0 = 0) ∧
      ∃ srv2 h2, runCalls accumulatingServer
          (InitModel accumulatingServer (fun _ _ => 0) h (exampleNodes 0)).1
          (InitModel accumulatingServer (fun _ _ => 0) h (exampleNodes 0)).2
          [exampleNodes 1, exampleNodes 2, exampleNodes 3] = some (srv2, h2) ∧
        h2.m_cacheSwapIndex = h.m_cacheSwapIndex ∧
        h2.m_bufferInUse =
          (if true then [exampleNodes 1, exampleNodes 2, exampleNodes 3].length % 2 else 0) ∧
        (true = true → h2.m_cacheSwapIndex.getD h2.m_bufferInUse 0 ≠ h2.m_bufferInUse) :=
  (swapIndex_alternates accumulatingServer (fun _ _ => 0) false (fun _ => 0) (fun _ _ => 0)
    (exampleNodes 0) 1 true .Staircase (3 / 10) 100 (fun _ => by decide)
    [exampleNodes 1, exampleNodes 2, exampleNodes 3]).resolve_left
    (fun hfail => absurd hfail.1 (by decide))

/-! ## InitModel on several workers -/

theorem initBuffers_slot0 (h : MultiversoHelper) (nodes : List Matrix) :
    initBuffers h nodes 0 = forNodes nodes
      (fun i mat b => writeAt b (h.offset i) (h.length i) mat.data) (h.m_cpuAsyncBuffer 0) := by
  have key : ∀ (m : Nat) (b0 : Nat → Nat → ElemType),
      forCount m (fun i b => setSlot b (i + 1) (writeAt (b (i + 1)) 0 h.m_totalModelSize (b 0)))
        b0 0 = b0 0 := by
    intro m b0
    induction m with
    | zero => rw [forCount_zero]
    | succ m ih =>
      rw [forCount_succ]
      simp only [setSlot]
      rw [if_neg (by omega)]
      exact ih
  unfold initBuffers
  rw [key]
  simp [setSlot]

theorem initBuffers_slot (h : MultiversoHelper) (nodes : List Matrix) (s : Nat)
    (hs : s < h.m_localCacheNumber) (x : Nat) (hx : x < h.m_totalModelSize) :
    initBuffers h nodes s x = initBuffers h nodes 0 x := by
  have key : ∀ (m : Nat) (b0 : Nat → Nat → ElemType),
      (forCount m (fun i b => setSlot b (i + 1) (writeAt (b (i + 1)) 0 h.m_totalModelSize (b 0)))
        b0 0 = b0 0) ∧
      ∀ t, 0 < t → t ≤ m →
        forCount m (fun i b => setSlot b (i + 1) (writeAt (b (i + 1)) 0 h.m_totalModelSize (b 0)))
          b0 t x = b0 0 x := by
    intro m b0
    induction m with
    | zero =>
      refine ⟨by rw [forCount_zero], ?_⟩
      intro t h0 hle
      omega
    | succ m ih =>
      rw [forCount_succ]
      refine ⟨?_, ?_⟩
      · simp only [setSlot]
        rw [if_neg (by omega)]
        exact ih.1
      · intro t h0 hle
        simp only [setSlot]
        by_cases htm : t = m + 1
        · rw [if_pos htm, ih.1]
          have hw := writeAt_inside
            (forCount m (fun i b => setSlot b (i + 1)
              (writeAt (b (i + 1)) 0 h.m_totalModelSize (b 0))) b0 (m + 1))
            0 h.m_totalModelSize (b0 0) x hx
          rw [Nat.zero_add] at hw
          exact hw
        · rw [if_neg htm]
          exact ih.2 t h0 (by omega)
  rcases Nat.eq_zero_or_pos s with h0 | hpos
  · rw [h0]
  · have hk := key (h.m_localCacheNumber - 1)
      (setSlot h.m_cpuAsyncBuffer 0 (forNodes nodes
        (fun i mat b => writeAt b (h.offset i) (h.length i) mat.data) (h.m_cpuAsyncBuffer 0)))
    unfold initBuffers
    rw [hk.2 s hpos (by omega), hk.1]

theorem initDelta_region (h : MultiversoHelper) (lens : List Nat) (hr : Registered h lens)
    (htotal : h.m_totalModelSize = lens.sum) (nodes : List Matrix)
    (hshape : nodes.map Matrix.GetNumElements = lens)
    (k : Nat) (hk : k < lens.length) (j : Nat) (hj : j < h.length k) :
    initDelta h nodes (h.offset k + j) =
      1 / (h.m_totalClientNumber : ℚ) * (nodes.getD k default).data j := by
  have hin : h.offset k + j < h.m_totalModelSize := by
    have := hr.inside k hk
    omega
  have hw := writeAt_inside h.m_deltaArray 0 h.m_totalModelSize (initBuffers h nodes 0)
    (h.offset k + j) hin
  rw [Nat.zero_add] at hw
  simp only [initDelta, transformScale, hin, if_true]
  rw [hw, initBuffers_slot0, copyNodes_region h lens hr nodes hshape _ k hk j hj]

theorem takeElems_getD (p : Nat → ElemType) (n j : Nat) :
    (takeElems p n).getD j 0 = if j < n then p j else 0 := by
  unfold takeElems
  simp only [List.getD_eq_getElem?_getD, List.getElem?_map]
  by_cases hj : j < n
  · rw [List.getElem?_range hj, if_pos hj]
    rfl
  · rw [List.getElem?_eq_none (by simpa using hj), if_neg hj]
    rfl

/-- Closed form of the push loop against the accumulating server. -/
theorem accumulating_addLoop (h : MultiversoHelper) (delta : Nat → ElemType)
    (srv : Nat → Nat → ElemType) (n t j : Nat) :
    forCount n (addStep accumulatingServer h delta) srv t j =
      srv t j + (if t < n then
        (if j < h.length t then delta (h.offset t + j) else 0) else 0) := by
  induction n with
  | zero => simp [forCount_zero]
  | succ n ih =>
    rw [forCount_succ]
    show (if t = n then _ + _ else _) = _
    by_cases htn : t = n
    · subst htn
      rw [if_pos rfl, ih, if_neg (Nat.lt_irrefl _), if_pos (Nat.lt_succ_self _), takeElems_getD]
      simp only [readAt, add_zero]
    · rw [if_neg htn, ih]
      by_cases hlt : t < n
      · have hlt2 : t < n + 1 := by omega
        simp only [hlt, hlt2, if_true]
      · have hlt2 : ¬ t < n + 1 := by omega
        simp only [hlt, hlt2, if_false]

theorem accumulating_pull_server (h : MultiversoHelper) (srv : Nat → Nat → ElemType)
    (d : Nat → ElemType) (m : Nat) :
    (forCount m
      (fun widx (s : (Nat → Nat → ElemType) × (Nat → ElemType)) =>
        ((accumulatingServer.Get s.1 widx (h.length widx)).1,
          writeAt s.2 (h.offset widx) (h.length widx)
            (accumulatingServer.Get s.1 widx (h.length widx)).2))
      (srv, d)).1 = srv := by
  induction m with
  | zero => rw [forCount_zero]
  | succ m ih =>
    rw [forCount_succ]
    exact ih

theorem accumulating_pull (h : MultiversoHelper) (lens : List Nat) (hr : Registered h lens)
    (srv : Nat → Nat → ElemType) :
    (InitModel_pull accumulatingServer srv h).1 = srv ∧
      (InitModel_pull accumulatingServer srv h).2.m_cpuAsyncBuffer = h.m_cpuAsyncBuffer ∧
      ∀ k, k < lens.length → ∀ j, j < lens.getD k 0 →
        (InitModel_pull accumulatingServer srv h).2.m_deltaArray (h.offset k + j) = srv k j := by
  refine ⟨accumulating_pull_server h srv h.m_deltaArray h.m_tableCount, rfl, ?_⟩
  intro k hk j hj
  have hreg := forCount_region h.offset h.length lens.length hr.disjoint
    (fun widx (s : (Nat → Nat → ElemType) × (Nat → ElemType)) =>
        ((accumulatingServer.Get s.1 widx (h.length widx)).1,
          writeAt s.2 (h.offset widx) (h.length widx)
            (accumulatingServer.Get s.1 widx (h.length widx)).2))
    Prod.snd
    (fun i s => (accumulatingServer.Get s.1 i (h.length i)).2) (fun _ _ => rfl)
    (srv, h.m_deltaArray) h.m_tableCount (by rw [hr.tableCount]) k
    (by rw [hr.tableCount]; exact hk) j (by rw [hr.length_eq]; exact hj)
  show (forCount h.m_tableCount _ (srv, h.m_deltaArray)).2 (h.offset k + j) = srv k j
  rw [hreg]
  show (forCount k _ (srv, h.m_deltaArray)).1 k j = srv k j
  rw [accumulating_pull_server]

theorem pushFold_spec (workers : List (MultiversoHelper × List Matrix)) :
    ∀ (acc : (Nat → Nat → ElemType) × List MultiversoHelper),
      workers.foldl
        (fun (acc : (Nat → Nat → ElemType) × List MultiversoHelper) w =>
          ((InitModel_push accumulatingServer acc.1 w.1 w.2).1,
            acc.2 ++ [(InitModel_push accumulatingServer acc.1 w.1 w.2).2]))
        acc =
      ((fun t j => acc.1 t j + (workers.map (fun w =>
          if t < w.1.m_tableCount then
            (if j < w.1.length t then initDelta w.1 w.2 (w.1.offset t + j) else 0)
          else 0)).sum),
        acc.2 ++ workers.map
          (fun w => (InitModel_push accumulatingServer (fun _ _ => 0) w.1 w.2).2)) := by
  induction workers with
  | nil =>
    intro acc
    simp
  | cons w rest ih =>
    intro acc
    rw [List.foldl_cons, ih]
    refine Prod.ext ?_ ?_
    · funext t j
      show (InitModel_push accumulatingServer acc.1 w.1 w.2).1 t j + _ = _
      have hadd := accumulating_addLoop w.1 (initDelta w.1 w.2) acc.1 w.1.m_tableCount t j
      have hpush : (InitModel_push accumulatingServer acc.1 w.1 w.2).1 t j =
          forCount w.1.m_tableCount (addStep accumulatingServer w.1 (initDelta w.1 w.2))
            acc.1 t j := rfl
      rw [hpush, hadd]
      simp only [List.map_cons, List.sum_cons]
      ring
    · show (acc.2 ++ [_]) ++ _ = acc.2 ++ _
      rw [List.map_cons, List.append_assoc]
      rfl

theorem pullFold_spec (srv : Nat → Nat → ElemType) (hs : List MultiversoHelper) :
    ∀ (acc : List MultiversoHelper),
      hs.foldl
        (fun (acc : (Nat → Nat → ElemType) × List MultiversoHelper) h =>
          ((InitModel_pull accumulatingServer acc.1 h).1,
            acc.2 ++ [(InitModel_pull accumulatingServer acc.1 h).2]))
        (srv, acc) =
      (srv, acc ++ hs.map (fun h => (InitModel_pull accumulatingServer srv h).2)) := by
  induction hs with
  | nil =>
    intro acc
    simp
  | cons h rest ih =>
    intro acc
    rw [List.foldl_cons]
    have hsrv : (InitModel_pull accumulatingServer srv h).1 = srv :=
      accumulating_pull_server h srv h.m_deltaArray h.m_tableCount
    show List.foldl _ ((InitModel_pull accumulatingServer srv h).1, _) rest = _
    rw [hsrv, ih, List.map_cons, List.append_assoc]
    rfl

theorem InitModel_allWorkers_eq (workers : List (MultiversoHelper × List Matrix)) :
    InitModel_allWorkers accumulatingServer (fun _ _ => 0) workers =
      ((fun t j => (0 : ElemType) + (workers.map (fun w =>
          if t < w.1.m_tableCount then
            (if j < w.1.length t then initDelta w.1 w.2 (w.1.offset t + j) else 0)
          else 0)).sum),
        workers.map (fun w => (InitModel_pull accumulatingServer
          (fun t j => (0 : ElemType) + (workers.map (fun w =>
            if t < w.1.m_tableCount then
              (if j < w.1.length t then initDelta w.1 w.2 (w.1.offset t + j) else 0)
            else 0)).sum)
          (InitModel_push accumulatingServer (fun _ _ => 0) w.1 w.2).2).2)) := by
  simp only [InitModel_allWorkers]
  rw [pushFold_spec workers (fun _ _ => 0, [])]
  simp only [List.nil_append]
  rw [pullFold_spec]
  simp only [List.nil_append, List.map_map]
  rfl

theorem contribution_eq (w : MultiversoHelper × List Matrix) (lens : List Nat) (N : Nat)
    (hw : Registered w.1 lens ∧ w.1.m_totalModelSize = lens.sum ∧
      w.2.map Matrix.GetNumElements = lens ∧ w.1.m_totalClientNumber = (N : Int))
    (k : Nat) (hk : k < lens.length) (j : Nat) (hj : j < lens.getD k 0) :
    (if k < w.1.m_tableCount then
        (if j < w.1.length k then initDelta w.1 w.2 (w.1.offset k + j) else 0)
      else 0) = 1 / (N : ℚ) * (w.2.getD k default).data j := by
  obtain ⟨hr, htot, hshape, hN⟩ := hw
  have hj2 : j < w.1.length k := by rw [hr.length_eq]; exact hj
  rw [if_pos (by rw [hr.tableCount]; exact hk), if_pos hj2,
    initDelta_region w.1 lens hr htot w.2 hshape k hk j hj2, hN]
  simp

/-- C5 (amended). Workers with the same registry `lens` (total size the sum of the lengths),
tensors of the registered shapes and `m_totalClientNumber = N >= 1` run `InitModel` against
the accumulating server, tables initially zero.  Afterwards (1) the shared value of every
table element is the sum over the workers of `1 / N` times that worker's initial value;
(2) every worker ends in the state of its own push followed by its pull of that shared
value; (3) in that state the delta array holds the shared value on every table region, while
every buffer slot holds the worker's own initial values; (4) when there are `N` workers and
all supply the same values `v`, the shared value is `v`. -/
theorem InitModel_allWorkers_spec (workers : List (MultiversoHelper × List Matrix))
    (lens : List Nat) (N : Nat) (hN : 1 ≤ N)
    (hworkers : ∀ w ∈ workers, Registered w.1 lens ∧ w.1.m_totalModelSize = lens.sum ∧
      w.2.map Matrix.GetNumElements = lens ∧ w.1.m_totalClientNumber = (N : Int)) :
    (∀ k, k < lens.length → ∀ j, j < lens.getD k 0 →
      (InitModel_allWorkers accumulatingServer (fun _ _ => 0) workers).1 k j =
        (workers.map (fun w => 1 / (N : ℚ) * (w.2.getD k default).data j)).sum) ∧
    (InitModel_allWorkers accumulatingServer (fun _ _ => 0) workers).2 =
      workers.map (fun w => (InitModel_pull accumulatingServer
        (InitModel_allWorkers accumulatingServer (fun _ _ => 0) workers).1
        (InitModel_push accumulatingServer (fun _ _ => 0) w.1 w.2).2).2) ∧
    (∀ w ∈ workers, ∀ k, k < lens.length → ∀ j, j < lens.getD k 0 →
      (InitModel_pull accumulatingServer
        (InitModel_allWorkers accumulatingServer (fun _ _ => 0) workers).1
        (InitModel_push accumulatingServer (fun _ _ => 0) w.1 w.2).2).2.m_deltaArray
          (w.1.offset k + j) =
        (InitModel_allWorkers accumulatingServer (fun _ _ => 0) workers).1 k j ∧
      ∀ s, s < w.1.m_localCacheNumber →
        (InitModel_pull accumulatingServer
          (InitModel_allWorkers accumulatingServer (fun _ _ => 0) workers).1
          (InitModel_push accumulatingServer (fun _ _ => 0) w.1 w.2).2).2.m_cpuAsyncBuffer s
            (w.1.offset k + j) = (w.2.getD k default).data j) ∧
    (workers.length = N → ∀ v : Nat → Nat → ElemType,
      (∀ w ∈ workers, ∀ k j, (w.2.getD k default).data j = v k j) →
      ∀ k, k < lens.length → ∀ j, j < lens.getD k 0 →
        (InitModel_allWorkers accumulatingServer (fun _ _ => 0) workers).1 k j = v k j) := by
  have hsum : ∀ k, k < lens.length → ∀ j, j < lens.getD k 0 →
      (InitModel_allWorkers accumulatingServer (fun _ _ => 0) workers).1 k j =
        (workers.map (fun w => 1 / (N : ℚ) * (w.2.getD k default).data j)).sum := by
    intro k hk j hj
    rw [InitModel_allWorkers_eq]
    show (0 : ElemType) + _ = _
    rw [zero_add]
    congr 1
    apply List.map_congr_left
    intro w hw
    exact contribution_eq w lens N (hworkers w hw) k hk j hj
  refine ⟨hsum, ?_, ?_, ?_⟩
  · rw [InitModel_allWorkers_eq]
  · intro w hw k hk j hj
    obtain ⟨hr, htot, hshape, hN⟩ := hworkers w hw
    have hrp : Registered (InitModel_push accumulatingServer (fun _ _ => 0) w.1 w.2).2 lens :=
      ⟨hr.tableLength, hr.tableCount, hr.tableOffsets⟩
    obtain ⟨_, hbuf, hdelta⟩ := accumulating_pull
      (InitModel_push accumulatingServer (fun _ _ => 0) w.1 w.2).2 lens hrp
      (InitModel_allWorkers accumulatingServer (fun _ _ => 0) workers).1
    refine ⟨hdelta k hk j hj, ?_⟩
    intro s hs
    rw [hbuf]
    have hj2 : j < w.1.length k := by rw [hr.length_eq]; exact hj
    have hin : w.1.offset k + j < w.1.m_totalModelSize := by
      have := hr.inside k hk
      omega
    show initBuffers w.1 w.2 s (w.1.offset k + j) = _
    rw [initBuffers_slot w.1 w.2 s hs _ hin, initBuffers_slot0,
      copyNodes_region w.1 lens hr w.2 hshape _ k hk j hj2]
  · intro hlen v hv k hk j hj
    rw [hsum k hk j hj]
    have hconst : workers.map (fun w => 1 / (N : ℚ) * (w.2.getD k default).data j) =
        workers.map (fun _ => 1 / (N : ℚ) * v k j) := by
      apply List.map_congr_left
      intro w hw
      rw [hv w hw k j]
    rw [hconst, List.map_const', List.sum_replicate, hlen, nsmul_eq_mul]
    have hN0 : (N : ℚ) ≠ 0 := by
      have : 0 < N := hN
      exact_mod_cast this.ne'
    field_simp

/-- C5 (counterexample). Two workers (`m_totalClientNumber = 2`), one `1 x 1` table, initial
values `0` on the first worker and `2` on the second, server initially zero.  After
`InitModel` on both, the shared value is `1` and both delta arrays hold `1`, but slot 0 holds
`0` on the first worker and `2` on the second: slot 0 is not the shared value and the workers
do not hold identical vectors. -/
theorem InitModel_slot0_keeps_own_values :
    ∃ hA hB srv hs,
      newMultiversoHelper false false (fun _ => 0) (fun _ _ => 0) [⟨1, 1, fun _ => 0⟩] 2 true
        .None (1 / 5) 600 = .ok hA ∧
      newMultiversoHelper false false (fun _ => 0) (fun _ _ => 0) [⟨1, 1, fun _ => 2⟩] 2 true
        .None (1 / 5) 600 = .ok hB ∧
      InitModel_allWorkers accumulatingServer (fun _ _ => 0)
        [(hA, [⟨1, 1, fun _ => 0⟩]), (hB, [⟨1, 1, fun _ => 2⟩])] = (srv, hs) ∧
      srv 0 0 = 1 ∧
      hs.map (fun h => h.m_deltaArray 0) = [1, 1] ∧
      hs.map (fun h => h.m_cpuAsyncBuffer 0 0) = [0, 2] ∧
      hs.map (fun h => h.m_cpuAsyncBuffer 0 0) ≠ [srv 0 0, srv 0 0] :=
  ⟨_, _, _, _, rfl, rfl, rfl, by decide!, by decide!, by decide!, by decide!⟩

/-- Witness of C5 (amended): the scenario of the specification, two tables of lengths 4 and
6, two workers with the same initial tensors `exampleNodes 0`; element 5 of table 1 of the
shared value is the common initial value. -/
theorem InitModel_allWorkers_spec_witness :
    (InitModel_allWorkers accumulatingServer (fun _ _ => 0)
        [(exampleWorker, exampleNodes 0), (exampleWorker, exampleNodes 0)]).1 1 5 =
      ((exampleNodes 0).getD 1 default).data 5 :=
  (InitModel_allWorkers_spec [(exampleWorker, exampleNodes 0), (exampleWorker, exampleNodes 0)]
    [4, 6] 2 (by decide)
    (by
      intro w hw
      simp only [List.mem_cons, List.mem_singleton, List.not_mem_nil, or_false, or_self] at hw
      subst hw
      exact ⟨⟨rfl, rfl, rfl⟩, by decide, rfl, rfl⟩)).2.2.2 rfl
    (fun k j => ((exampleNodes 0).getD k default).data j)
    (by
      intro w hw k j
      simp only [List.mem_cons, List.mem_singleton, List.not_mem_nil, or_false, or_self] at hw
      subst hw
      rfl)
    1 (by decide) 5 (by decide)

end Multiverso
